import Mathlib

/-!
Verification development for the iec_st_compiler repository.

The source (Python) is shallowly embedded here:
  * text is modelled as `List Char` (`StrL`);
  * the parser's AST values `(tag, children)` / leaf strings are the
    inductive `Ast` (the one-level list flattening that the source helper
    `_iterate_ast_list` performs on tuples is baked into `Ast.node`, whose
    children list is exactly the flattened child sequence; named regex
    rules, which produce `(tag, "tok")`, are represented as
    `Ast.node tag [Ast.leaf "tok"]`, which all embedded consumers treat
    identically);
  * Python sets (`variables_read`, `variables_written`, ...) are modelled
    as duplicate-free lists in first-insertion order; no theorem below
    depends on the iteration order of a Python set;
  * unbounded recursion (the PDG builder's mutual recursion, the parser,
    the extractor's graph walks) is given explicit fuel; running out of
    fuel yields a distinguished outcome or leaves the state unchanged, and
    entry points pass fuel that is large enough for the actual runs.
-/

set_option maxHeartbeats 4000000

abbrev StrL := List Char

/-- Convert a Lean string literal to the `List Char` text representation. -/
def sl (s : String) : StrL := s.toList

/-- Python `str.isspace` characters relevant to `str.strip()` (ASCII range;
all inputs in this development are ASCII). -/
def pyIsSpace (c : Char) : Bool :=
  c = ' ' || c = '\t' || c = '\n' || c = '\x0d' || c = '\x0b' || c = '\x0c'

/-- Python `str.strip()`: remove leading and trailing whitespace. -/
def pyStrip (s : StrL) : StrL :=
  ((s.dropWhile pyIsSpace).reverse.dropWhile pyIsSpace).reverse

/-- Prefix test on character lists. -/
def isPfx : StrL → StrL → Bool
  | [], _ => true
  | _ :: _, [] => false
  | p :: ps, c :: cs => p = c && isPfx ps cs

/-- Substring (infix) test, as Python `pat in s` / `re .match r".*pat.*"`. -/
def isSub (pat : StrL) (s : StrL) : Bool :=
  match s with
  | [] => isPfx pat []
  | _ :: rest => isPfx pat s || isSub pat rest

/-- Suffix test, as the regexes `r".*pat$"` (names contain no newline). -/
def isSfx (pat : StrL) (s : StrL) : Bool :=
  isPfx pat.reverse s.reverse

/-- Fuel-indexed Python `str.replace` (all occurrences, left to right).
Called with fuel `> s.length`, so the fuel never runs out. -/
def pyReplaceF : Nat → StrL → StrL → StrL → StrL
  | 0, s, _, _ => s
  | fuel + 1, s, pat, rep =>
    match s with
    | [] => []
    | c :: rest =>
      if pat ≠ [] && isPfx pat (c :: rest) then
        rep ++ pyReplaceF fuel ((c :: rest).drop pat.length) pat rep
      else
        c :: pyReplaceF fuel rest pat rep

/-- Python `str.replace`. -/
def pyReplace (s pat rep : StrL) : StrL := pyReplaceF (s.length + 1) s pat rep

/-- Python `" ".join(parts)`. -/
def joinWith (sep : StrL) : List StrL → StrL
  | [] => []
  | [x] => x
  | x :: y :: rest => x ++ sep ++ joinWith sep (y :: rest)

/-- Append an element to a set-as-list if it is not already present
(Python `set.add`, insertion order kept). -/
def addIfAbsent (l : List StrL) (x : StrL) : List StrL :=
  if x ∈ l then l else l ++ [x]

/-- Fold `addIfAbsent` over a list (Python `set.update`). -/
def addAllIfAbsent (l : List StrL) (xs : List StrL) : List StrL :=
  xs.foldl addIfAbsent l

-- ==========================================================================
-- AST values produced by the parser (see module comment).
-- ==========================================================================

inductive Ast where
  | leaf (s : StrL)
  | node (tag : StrL) (children : List Ast)

/-- Source `_is_node_type`: the value is a tagged node with the given tag. -/
def is_node_type (a : Ast) (t : StrL) : Bool :=
  match a with
  | .node tag _ => tag = t
  | .leaf _ => false

/-- Source `_iterate_ast_list` / `_get_children` (flattening included in
the `Ast` representation). -/
def get_children (a : Ast) : List Ast :=
  match a with
  | .node _ cs => cs
  | .leaf _ => []

/-- Source `_extract_text`: the value itself if it is a string, otherwise
the first direct string child of the node. -/
def extract_text (a : Ast) : Option StrL :=
  match a with
  | .leaf s => some s
  | .node _ cs =>
    cs.findSome? fun c =>
      match c with
      | .leaf s => some s
      | .node _ _ => none

mutual

/-- Source `_find_all_nodes` (preorder, node before children). -/
def find_all_nodes (a : Ast) (t : StrL) : List Ast :=
  (if is_node_type a t then [a] else []) ++
  (match a with
   | .leaf _ => []
   | .node _ cs => find_all_nodes_in cs t)

/-- `_find_all_nodes` over a list of AST values (also used for the
top-level parser result, which is a list). -/
def find_all_nodes_in : List Ast → StrL → List Ast
  | [], _ => []
  | c :: cs, t => find_all_nodes c t ++ find_all_nodes_in cs t

end

-- ==========================================================================
-- Variable classification (pdg.py, VariableClassifier).
-- ==========================================================================

inductive VariableType where
  | sensing
  | configuration
  | actuation
  | internal
deriving DecidableEq

structure Variable where
  name : StrL
  var_type : VariableType
  data_type : StrL
  scope : StrL
  initial_value : Option StrL := none
deriving DecidableEq

/-- SENSING_PATTERNS, each regex translated for newline-free names:
`.*X.*` = contains, `^X.*` = starts with, `.*X$` = ends with
(`re .match` anchors at the start; names come from `\w+` matches so they
contain no newline, making these translations exact). -/
def matches_sensing (s : StrL) : Bool :=
  isSub (sl "sensor") s || isSfx (sl "_sensor") s || isSub (sl "input") s ||
  isPfx (sl "l_") s || isSfx (sl "level") s || isSfx (sl "position") s ||
  isSub (sl "_actual") s || isSfx (sl "reading") s || isSfx (sl "detected") s

/-- ACTUATION_PATTERNS translated as in `matches_sensing`. -/
def matches_actuation (s : StrL) : Bool :=
  isPfx (sl "s_") s || isSub (sl "actuator") s || isSfx (sl "_actuator") s ||
  isSfx (sl "command") s || isSfx (sl "_command") s || isSfx (sl "output") s ||
  isSub (sl "_start") s || isSfx (sl "motor") s || isSfx (sl "valve") s ||
  isSfx (sl "pump") s

/-- CONFIGURATION_PATTERNS translated as in `matches_sensing`. -/
def matches_configuration (s : StrL) : Bool :=
  isSub (sl "target") s || isSfx (sl "_target") s || isSfx (sl "level") s ||
  isSfx (sl "threshold") s || isSfx (sl "offset") s || isSfx (sl "_offset") s ||
  isSfx (sl "limit") s || isSfx (sl "setpoint") s || isSfx (sl "tolerance") s ||
  isSfx (sl "tol") s

/-- Source `VariableClassifier.classify_variable`. -/
def classify_variable (var_name : StrL) (scope : StrL) : VariableType :=
  let var_lower := var_name.map Char.toLower
  if scope = sl "input" then
    if matches_configuration var_lower then VariableType.configuration
    else VariableType.sensing
  else if scope = sl "output" then VariableType.actuation
  else
    if matches_sensing var_lower then VariableType.sensing
    else if matches_actuation var_lower then VariableType.actuation
    else if matches_configuration var_lower then VariableType.configuration
    else VariableType.internal

-- ==========================================================================
-- PDG data structures (pdg.py).
-- ==========================================================================

structure PDGNode where
  id : Nat
  statement : StrL
  statement_type : StrL
  variables_read : List StrL
  variables_written : List StrL
  ast_node : Option Ast := none

structure PDGEdge where
  from_node : Nat
  to_node : Nat
  edge_type : StrL
  var : Option StrL := none
  label : Option StrL := none
deriving DecidableEq

/-- `ProgramDependencyGraph`; `nodes` is the id-keyed dict in insertion
order (node ids are dense and created in order, so insertion order is id
order), `variables` the name-keyed variable table. The `confidence`
field (a constant 1.0, never read) is omitted. -/
structure PDG where
  state_id : StrL
  nodes : List PDGNode
  edges : List PDGEdge
  vartable : List (StrL × Variable)
  next_node_id : Nat

/-- Dict lookup `pdg.nodes[node_id]`. -/
def PDG.nodeAt (pdg : PDG) (i : Nat) : Option PDGNode :=
  pdg.nodes.find? fun n => n.id = i

/-- Dict lookup `pdg.variables[name]` / membership. -/
def PDG.varAt (pdg : PDG) (name : StrL) : Option Variable :=
  (pdg.vartable.find? fun p => p.1 = name).map Prod.snd

/-- Source `get_predecessors` on an edge list: `from`-ids of edges into
`node_id`, optionally filtered by edge type, in edge-list order. -/
def get_predecessors (edges : List PDGEdge) (node_id : Nat)
    (ty : Option StrL) : List Nat :=
  edges.filterMap fun e =>
    if e.to_node = node_id ∧ (ty = none ∨ ty = some e.edge_type) then
      some e.from_node
    else none

/-- Source `PDG.create_node`: append a node with `id = next_node_id`. -/
def PDG.createNode (pdg : PDG) (statement : StrL) (stmt_type : StrL)
    (reads writes : List StrL) (ast : Option Ast) : PDG × Nat :=
  let n : PDGNode :=
    { id := pdg.next_node_id, statement := statement,
      statement_type := stmt_type, variables_read := reads,
      variables_written := writes, ast_node := ast }
  ({ pdg with nodes := pdg.nodes ++ [n],
              next_node_id := pdg.next_node_id + 1 },
   pdg.next_node_id)

-- ==========================================================================
-- Expression / statement helpers of PDGBuilder.
-- ==========================================================================

mutual

/-- Recursion of `_extract_expression_variables`: names of all
`variable_name` nodes in the subtree (a Python set; first-visit order
here), pushed onto an accumulator. -/
def extract_expression_variables_go (acc : List StrL) (a : Ast) : List StrL :=
  let acc :=
    if is_node_type a (sl "variable_name") then
      match extract_text a with
      | some v => addIfAbsent acc v
      | none => acc
    else acc
  match a with
  | .leaf _ => acc
  | .node _ cs => extract_expression_variables_goList acc cs

def extract_expression_variables_goList (acc : List StrL) :
    List Ast → List StrL
  | [] => acc
  | c :: cs =>
    extract_expression_variables_goList (extract_expression_variables_go acc c) cs

end

def extract_expression_variables (a : Ast) : List StrL :=
  extract_expression_variables_go [] a

/-- Source `_extract_condition_variables`: variables of the first direct
`expression` child. -/
def extract_condition_variables (if_stmt : Ast) : List StrL :=
  match (get_children if_stmt).find? (fun c => is_node_type c (sl "expression")) with
  | some e => extract_expression_variables e
  | none => []

/-- Source `_extract_assignment_lhs`: text of first direct `variable_name`
child. -/
def extract_assignment_lhs (stmt : Ast) : Option StrL :=
  match (get_children stmt).find? (fun c => is_node_type c (sl "variable_name")) with
  | some v => extract_text v
  | none => none

/-- Operator map of `_format_expression_ast` (note: the key is
`not_equal`, while the grammar's rule for the token `<>` is named
`equals_not`). -/
def format_operator_map (t : StrL) : Option StrL :=
  if t = sl "less_or_equal" then some (sl "<=")
  else if t = sl "greater_or_equal" then some (sl ">=")
  else if t = sl "less_than" then some (sl "<")
  else if t = sl "greater_than" then some (sl ">")
  else if t = sl "equals" then some (sl "=")
  else if t = sl "not_equal" then some (sl "<>")
  else if t = sl "adding" then some (sl "+")
  else if t = sl "subtracting" then some (sl "-")
  else if t = sl "multiply_with" then some (sl "*")
  else if t = sl "divide_by" then some (sl "/")
  else if t = sl "logical_and" then some (sl "AND")
  else if t = sl "logical_or" then some (sl "OR")
  else if t = sl "logical_not" then some (sl "NOT")
  else if t = sl "modulo" then some (sl "MOD")
  else if t = sl "assign" then some (sl ":=")
  else none

mutual

/-- Preorder token collection of `_format_expression_ast` (accumulator in
reverse order). -/
def format_expr_collect (acc : List StrL) (a : Ast) : List StrL :=
  match a with
  | .leaf s => s :: acc
  | .node t cs =>
    let acc :=
      match format_operator_map t with
      | some sym => sym :: acc
      | none => acc
    format_expr_collectList acc cs

def format_expr_collectList (acc : List StrL) : List Ast → List StrL
  | [] => acc
  | c :: cs => format_expr_collectList (format_expr_collect acc c) cs

end

/-- Source `_format_expression_ast`: collect leaf tokens and operator
symbols in preorder, join with spaces, squeeze spaces around brackets. -/
def format_expression_ast (a : Ast) : StrL :=
  let parts := format_expr_collect [] a
  let text := joinWith (sl " ") parts.reverse
  let text := pyReplace text (sl " (") (sl "(")
  let text := pyReplace text (sl "( ") (sl "(")
  let text := pyReplace text (sl " )") (sl ")")
  let text := pyReplace text (sl " [") (sl "[")
  let text := pyReplace text (sl "[ ") (sl "[")
  let text := pyReplace text (sl " ]") (sl "]")
  let text := pyReplace text (sl " . ") (sl ".")
  let text := pyReplace text (sl " ,") (sl ",")
  text


/-- Source `_format_condition`: format the first direct `expression`
child. -/
def format_condition (if_stmt : Ast) : StrL :=
  match (get_children if_stmt).find? (fun c => is_node_type c (sl "expression")) with
  | some e => format_expression_ast e
  | none => sl "UNKNOWN CONDITION"

/-- Source `_format_assignment_statement`. -/
def format_assignment_statement (stmt : Ast) (lhs : Option StrL) : StrL :=
  let rhs :=
    match (get_children stmt).find? (fun c => is_node_type c (sl "expression")) with
    | some e => some e
    | none =>
      (get_children stmt).find? fun c =>
        is_node_type c (sl "boolean_literal") ||
        is_node_type c (sl "integer_literal") ||
        is_node_type c (sl "real_literal")
  match lhs, rhs with
  | some l, some r => l ++ sl " := " ++ format_expression_ast r
  | some l, none => l ++ sl " := UNKNOWN"
  | none, _ => sl "None := UNKNOWN"

/-- Source `_extract_then_statements`: children of the first
`statement_list` child that appears strictly after an `expression`
child. -/
def extract_then_statements (if_stmt : Ast) : List Ast :=
  go false (get_children if_stmt)
where
  go (foundExpr : Bool) : List Ast → List Ast
    | [] => []
    | c :: cs =>
      if is_node_type c (sl "expression") then go true cs
      else if foundExpr && is_node_type c (sl "statement_list") then
        get_children c
      else go foundExpr cs

/-- Source `_extract_elsif_blocks` (state machine over the children;
note that the grammar never emits an `"ELSIF"` leaf, so on parser output
this is always empty). -/
def extract_elsif_blocks (if_stmt : Ast) : List (Ast × List Ast) :=
  go none false false (get_children if_stmt)
where
  go (currentCond : Option Ast) (lookingForCond lookingForStmt : Bool) :
      List Ast → List (Ast × List Ast)
    | [] => []
    | c :: cs =>
      if extract_text c = some (sl "ELSIF") then
        go none true false cs
      else if lookingForCond && is_node_type c (sl "expression") then
        go (some c) false true cs
      else if lookingForStmt && is_node_type c (sl "statement_list") then
        (match currentCond with
         | some cond => [(cond, get_children c)]
         | none => []) ++ go none lookingForCond false cs
      else go currentCond lookingForCond lookingForStmt cs

/-- Source `_extract_else_statements`. -/
def extract_else_statements (if_stmt : Ast) : List Ast :=
  let children := get_children if_stmt
  if children.length < 2 then []
  else go (children.drop 2)
where
  go : List Ast → List Ast
    | [] => []
    | c :: cs =>
      if is_node_type c (sl "expression") then
        match cs with
        | [] => []
        | _ :: cs2 => go cs2
      else if is_node_type c (sl "statement_list") then get_children c
      else go cs

/-- Source `_extract_statement_list` (from a case element). -/
def extract_statement_list (case_element : Ast) : List Ast :=
  match (get_children case_element).find?
      (fun c => is_node_type c (sl "statement_list")) with
  | some s => get_children s
  | none => []

-- ==========================================================================
-- PDG builder: node creation, control cascade, pruning, data edges.
-- ==========================================================================

/-- Source `_create_assignment_node`. -/
def create_assignment_node (pdg : PDG) (stmt : Ast) : PDG :=
  let lhs := extract_assignment_lhs stmt
  let rhs_vars := extract_expression_variables stmt
  let statement := format_assignment_statement stmt lhs
  let writes := match lhs with
    | some l => [l]
    | none => []
  (pdg.createNode statement (sl "assignment") rhs_vars writes (some stmt)).1

/-- Add the control edges `cond_id → i` for `i ∈ [start, stop)` with the
given label (the source loop `for node_id in range(start, end + 1)`). -/
def add_cone_edges (pdg : PDG) (cond_id : Nat) (start stop : Nat)
    (label : StrL) : PDG :=
  { pdg with
    edges := pdg.edges ++ (List.range' start (stop - start)).map fun i =>
      { from_node := cond_id, to_node := i, edge_type := sl "control",
        var := none, label := some label } }

mutual

/-- Source `_create_nodes_from_statements` / `_create_if_statement_nodes`,
with explicit fuel (every recursive call decrements it; out of fuel the
state is returned unchanged). -/
def create_nodes_from_statements : Nat → PDG → List Ast → PDG
  | 0, pdg, _ => pdg
  | _ + 1, pdg, [] => pdg
  | fuel + 1, pdg, stmt :: rest =>
    let pdg :=
      if is_node_type stmt (sl "assignment_statement") then
        create_assignment_node pdg stmt
      else if is_node_type stmt (sl "if_statement") then
        create_if_statement_nodes fuel pdg stmt
      else pdg
    create_nodes_from_statements fuel pdg rest

/-- Source `_create_if_statement_nodes`. -/
def create_if_statement_nodes : Nat → PDG → Ast → PDG
  | 0, pdg, _ => pdg
  | fuel + 1, pdg, if_stmt =>
    let condition_vars := extract_condition_variables if_stmt
    let condition_str := format_condition if_stmt
    let (pdg, cond_id) := pdg.createNode (sl "IF " ++ condition_str)
      (sl "condition") condition_vars [] (some if_stmt)
    let then_start := pdg.next_node_id
    let pdg := create_nodes_from_statements fuel pdg
      (extract_then_statements if_stmt)
    let pdg := add_cone_edges pdg cond_id then_start pdg.next_node_id (sl "then")
    let pdg := process_elsif_blocks fuel pdg (extract_elsif_blocks if_stmt)
    let else_statements := extract_else_statements if_stmt
    if else_statements.isEmpty then pdg
    else
      let else_start := pdg.next_node_id
      let pdg := create_nodes_from_statements fuel pdg else_statements
      add_cone_edges pdg cond_id else_start pdg.next_node_id (sl "else")

/-- The ELSIF loop of `_create_if_statement_nodes`. -/
def process_elsif_blocks : Nat → PDG → List (Ast × List Ast) → PDG
  | 0, pdg, _ => pdg
  | _ + 1, pdg, [] => pdg
  | fuel + 1, pdg, (cond_ast, stmts) :: rest =>
    let elsif_vars := extract_condition_variables cond_ast
    let elsif_str := format_expression_ast cond_ast
    let (pdg, elsif_id) := pdg.createNode (sl "ELSIF " ++ elsif_str)
      (sl "condition") elsif_vars [] (some cond_ast)
    let elsif_start := pdg.next_node_id
    let pdg := create_nodes_from_statements fuel pdg stmts
    let pdg := add_cone_edges pdg elsif_id elsif_start pdg.next_node_id (sl "elsif")
    process_elsif_blocks fuel pdg rest

end

mutual

/-- Computable size of an `Ast` (used only as generous fuel; the nested
inductive's automatically generated `sizeOf` has no executable code). -/
def astSize : Ast → Nat
  | .leaf _ => 1
  | .node _ cs => 1 + astSizeList cs

def astSizeList : List Ast → Nat
  | [] => 0
  | c :: cs => 1 + astSize c + astSizeList cs

end

/-- One iteration of the pruning loop in `_add_control_dependencies`,
for one node id. -/
def prune_step (edges : List PDGEdge) (node_id : Nat) : List PDGEdge :=
  let preds := get_predecessors edges node_id (some (sl "control"))
  if preds.length ≤ 1 then edges
  else
    let to_remove := preds.filter fun p1 =>
      preds.any fun p2 =>
        p1 ≠ p2 && edges.any fun e =>
          e.from_node = p1 && e.to_node = p2 && e.edge_type = sl "control"
    edges.filter fun e =>
      ¬(e.to_node = node_id ∧ e.from_node ∈ to_remove ∧ e.edge_type = sl "control")

/-- Source `_add_control_dependencies`: prune transitive control edges,
iterating the nodes in dict (= id) order. -/
def add_control_dependencies (pdg : PDG) : PDG :=
  { pdg with edges := (pdg.nodes.map PDGNode.id).foldl prune_step pdg.edges }

/-- Insertion sort by node id (`sorted(pdg.nodes.keys())`; on built PDGs
the node list is already sorted, so this is the identity there). -/
def sort_nodes_by_id : List PDGNode → List PDGNode
  | [] => []
  | n :: rest => insertById n (sort_nodes_by_id rest)
where
  insertById (n : PDGNode) : List PDGNode → List PDGNode
    | [] => [n]
    | m :: rest =>
      if n.id ≤ m.id then n :: m :: rest
      else m :: insertById n rest

/-- Source `_add_data_dependencies`: last-writer def-use edges. -/
def add_data_dependencies (pdg : PDG) : PDG :=
  let step := fun (acc : List PDGEdge × List (StrL × Nat)) (n : PDGNode) =>
    let (edges, last_def) := acc
    let edges := edges ++ n.variables_read.filterMap fun v =>
      match last_def.find? (fun p => p.1 = v) with
      | some (_, d) =>
        some { from_node := d, to_node := n.id, edge_type := sl "data",
               var := some v, label := some (sl "def-use: " ++ v) }
      | none => none
    let last_def := n.variables_written.foldl
      (fun m v => (m.filter fun p => p.1 ≠ v) ++ [(v, n.id)]) last_def
    (edges, last_def)
  { pdg with
    edges := ((sort_nodes_by_id pdg.nodes).foldl step (pdg.edges, [])).1 }

/-- Source `PDGBuilder.build_pdg_for_state`. -/
def build_pdg_for_state (vartable : List (StrL × Variable))
    (state_id : StrL) (case_element_ast : Ast) : PDG :=
  let pdg : PDG := { state_id := state_id, nodes := [], edges := [],
                     vartable := vartable, next_node_id := 0 }
  let statement_list := extract_statement_list case_element_ast
  if statement_list.isEmpty then pdg
  else
    let pdg := create_nodes_from_statements (astSize case_element_ast + 1)
      pdg statement_list
    let pdg := add_control_dependencies pdg
    add_data_dependencies pdg

mutual

/-- Helper of `_extract_state_variable`: first `variable_name` text in a
preorder search. -/
def find_first_var (a : Ast) : Option StrL :=
  if is_node_type a (sl "variable_name") then extract_text a
  else
    match a with
    | .leaf _ => none
    | .node _ cs => find_first_var_list cs

def find_first_var_list : List Ast → Option StrL
  | [] => none
  | c :: cs =>
    match find_first_var c with
    | some v => some v
    | none => find_first_var_list cs

end

/-- Source `_extract_state_variable`: first `variable_name` text inside
the first `expression` child of the CASE statement. -/
def extract_state_variable (case_stmt : Ast) : Option StrL :=
  match (get_children case_stmt).find?
      (fun c => is_node_type c (sl "expression")) with
  | some e => find_first_var e
  | none => none

/-- Source `_extract_state_id`: the text of the first `integer_literal`
reached by the nested iteration case_list → case_list_element →
integer_literal (the source returns at the first literal found, whatever
its text is). -/
def extract_state_id (case_element : Ast) : Option StrL :=
  let lits :=
    (((get_children case_element).filter
        (fun c => is_node_type c (sl "case_list"))).flatMap fun cl =>
      ((get_children cl).filter
          (fun c => is_node_type c (sl "case_list_element"))).flatMap fun cle =>
        (get_children cle).filter fun c => is_node_type c (sl "integer_literal"))
  match lits with
  | il :: _ => extract_text il
  | [] => none

-- ==========================================================================
-- Invariant templates (invariants.py).
-- ==========================================================================

/-- `SingleVariableInvariant` (the constant `confidence = 1.0`, never
read, is omitted; `variables` is called `vars`, `structure` is called
`structure_text`, both being Lean keywords). -/
structure SingleInv where
  id : StrL
  type : StrL
  state_id : StrL
  vars : List StrL
  structure_text : StrL
  sensing_var : StrL
  sensing_var_type : VariableType
  actuation_var : StrL
  operator : StrL
  actuation_value : Option StrL

/-- `MultiVariableInvariant`. -/
structure MultiInv where
  id : StrL
  type : StrL
  state_id : StrL
  vars : List StrL
  structure_text : StrL
  sensing_vars : List StrL
  configuration_vars : List StrL
  actuation_var : StrL
  condition : StrL
  action : StrL
  condition_ast : Option Ast

/-- `InterStateInvariant`. -/
structure InterInv where
  id : StrL
  type : StrL
  state_id : StrL
  vars : List StrL
  structure_text : StrL
  source_state : StrL
  dest_state : StrL
  transition_condition : StrL
  state_variable : StrL
  condition_variables : List StrL

/-- The heterogeneous list of `InvariantTemplate` subclasses. -/
inductive Template where
  | single (t : SingleInv)
  | multi (t : MultiInv)
  | inter (t : InterInv)

/-- The `type` field of a template. -/
def Template.typeStr : Template → StrL
  | .single t => t.type
  | .multi t => t.type
  | .inter t => t.type

/-- The `id` field of a template. -/
def Template.idStr : Template → StrL
  | .single t => t.id
  | .multi t => t.id
  | .inter t => t.id

/-- Python `f"{value}"` on an `Optional[str]` (`None` prints as `None`). -/
def ovalStr : Option StrL → StrL
  | some v => v
  | none => sl "None"

/-- Truthiness test `self.state_variable and self.state_variable in
writes` (an empty string is falsy in Python). -/
def sv_blocks (sv : Option StrL) (writes : List StrL) : Bool :=
  match sv with
  | some v => !v.isEmpty && v ∈ writes
  | none => false

/-- The regex search `:=\s*(.+?)(?:;|$)` of `_extract_actuation_value`:
leftmost position where `:=` is followed (after whitespace) by at least
one character; the lazy group stops at the first `;` after at least one
captured character, or at the end of the string (statements contain no
newline, so `.` and `$` need no newline cases). -/
def regex_assign_value : StrL → Option StrL
  | [] => none
  | c :: rest =>
    if isPfx (sl ":=") (c :: rest) then
      let after := rest.drop 1
      let trimmed := after.dropWhile pyIsSpace
      match trimmed with
      | [] => regex_assign_value rest
      | t0 :: t1 =>
        match t1.findIdx? (fun ch => ch = ';') with
        | some j => some (t0 :: t1.take j)
        | none => some (t0 :: t1)
    else regex_assign_value rest

/-- Source `_extract_actuation_value`. -/
def extract_actuation_value (n : PDGNode) : Option StrL :=
  match regex_assign_value n.statement with
  | some g => some (pyStrip g)
  | none => none

/-- Source `_extract_condition_expression`. -/
def extract_condition_expression (n : PDGNode) : StrL :=
  if isPfx (sl "IF ") n.statement then pyStrip (n.statement.drop 3)
  else if isPfx (sl "ELSIF ") n.statement then pyStrip (n.statement.drop 6)
  else n.statement

/-- Source `_format_assignment` (of invariants.py). -/
def format_assignment_node (n : PDGNode) : StrL :=
  pyStrip (pyReplace n.statement (sl ";") (sl ""))

/-- Operator map of `_extract_operator_for_variable` (comparisons only;
the key `not_equal` does not match any grammar rule name — the rule for
`<>` is named `equals_not`). -/
def inv_operator_map (t : StrL) : Option StrL :=
  if t = sl "less_or_equal" then some (sl "<=")
  else if t = sl "greater_or_equal" then some (sl ">=")
  else if t = sl "less_than" then some (sl "<")
  else if t = sl "greater_than" then some (sl ">")
  else if t = sl "equals" then some (sl "=")
  else if t = sl "not_equal" then some (sl "<>")
  else none

/-- Direct string child equal to `v` (the `variable_name` check inside
`_contains_variable`). -/
def has_direct_leaf (cs : List Ast) (v : StrL) : Bool :=
  cs.any fun c =>
    match c with
    | .leaf s => s = v
    | .node _ _ => false

mutual

/-- Source `_contains_variable`. -/
def contains_variable (a : Ast) (v : StrL) : Bool :=
  match a with
  | .leaf s => s = v
  | .node tag cs =>
    (tag = sl "variable_name" && has_direct_leaf cs v) ||
    contains_variable_list cs v

def contains_variable_list : List Ast → StrL → Bool
  | [], _ => false
  | c :: cs, v => contains_variable c v || contains_variable_list cs v

end

mutual

/-- The `traverse` of `_extract_operator_for_variable`: first (preorder)
comparison-tagged node whose subtree contains the variable. -/
def find_operator (a : Ast) (v : StrL) : Option StrL :=
  match a with
  | .leaf _ => none
  | .node t cs =>
    match inv_operator_map t with
    | some sym =>
      if contains_variable a v then some sym else find_operator_list cs v
    | none => find_operator_list cs v

def find_operator_list : List Ast → StrL → Option StrL
  | [], _ => none
  | c :: cs, v =>
    match find_operator c v with
    | some sym => some sym
    | none => find_operator_list cs v

end

/-- Source `_extract_operator_for_variable`. -/
def extract_operator_for_variable (cond_node : PDGNode) (v : StrL) :
    Option StrL :=
  match cond_node.ast_node with
  | none => none
  | some a => find_operator a v

/-- Source `_extract_single_variable_invariants`. -/
def extract_single_variable_invariants (pdg : PDG) (act_node_id : Nat)
    (act_var : StrL) : List Template :=
  match pdg.nodeAt act_node_id with
  | none => []
  | some act_node =>
    let actuation_value := extract_actuation_value act_node
    let control_preds :=
      get_predecessors pdg.edges act_node_id (some (sl "control"))
    control_preds.flatMap fun cond_id =>
      match pdg.nodeAt cond_id with
      | none => []
      | some cond_node =>
        if cond_node.statement_type ≠ sl "condition" then []
        else
          cond_node.variables_read.flatMap fun v =>
            match pdg.varAt v with
            | none => []
            | some var_obj =>
              if var_obj.var_type = VariableType.sensing then
                match extract_operator_for_variable cond_node v with
                | some op =>
                  [Template.single {
                    id := sl "single_" ++ pdg.state_id ++ sl "_" ++ v ++
                      sl "_" ++ act_var,
                    type := sl "single",
                    state_id := pdg.state_id,
                    vars := [v, act_var],
                    structure_text := sl "IF " ++ v ++ sl " " ++ op ++
                      sl " [#] THEN " ++ act_var ++ sl " = " ++
                      ovalStr actuation_value,
                    sensing_var := v,
                    sensing_var_type := var_obj.var_type,
                    actuation_var := act_var,
                    operator := op,
                    actuation_value := actuation_value }]
                | none => []
              else []

/-- The backward DFS of `_extract_multi_variable_invariant`; the stack is
kept top-at-head (Python pops from the end of `to_visit` and extends
with the predecessor list, so the next node popped is the last-listed
predecessor). On built PDGs the fuel passed below is never exhausted. -/
def multi_dfs : Nat → PDG → List Nat → List Nat → List StrL → List StrL →
    List StrL × List StrL
  | 0, _, _, _, sens, conf => (sens, conf)
  | fuel + 1, pdg, to_visit, visited, sens, conf =>
    match to_visit with
    | [] => (sens, conf)
    | node_id :: rest =>
      if node_id ∈ visited then multi_dfs fuel pdg rest visited sens conf
      else
        let visited := visited ++ [node_id]
        match pdg.nodeAt node_id with
        | none => multi_dfs fuel pdg rest visited sens conf
        | some node =>
          let sc := node.variables_read.foldl
            (fun (sc : List StrL × List StrL) v =>
              match pdg.varAt v with
              | none => sc
              | some vo =>
                if vo.var_type = VariableType.sensing then
                  (addIfAbsent sc.1 v, sc.2)
                else if vo.var_type = VariableType.configuration then
                  (sc.1, addIfAbsent sc.2 v)
                else sc)
            (sens, conf)
          let preds := get_predecessors pdg.edges node_id none
          multi_dfs fuel pdg (preds.reverse ++ rest) visited sc.1 sc.2

/-- Source `_extract_multi_variable_invariant`. -/
def extract_multi_variable_invariant (pdg : PDG) (act_node_id : Nat)
    (act_var : StrL) : Option Template :=
  match pdg.nodeAt act_node_id with
  | none => none
  | some act_node =>
    let fuel := (pdg.nodes.length + pdg.edges.length + 2) *
      (pdg.edges.length + 2)
    let sc := multi_dfs fuel pdg [act_node_id] [] [] []
    let sensing_vars := sc.1
    let config_vars := sc.2
    if sensing_vars.isEmpty && config_vars.isEmpty then none
    else
      let control_preds :=
        get_predecessors pdg.edges act_node_id (some (sl "control"))
      let cc : StrL × Option Ast :=
        match control_preds with
        | [] => (sl "", none)
        | cid :: _ =>
          match pdg.nodeAt cid with
          | none => (sl "", none)
          | some cn => (extract_condition_expression cn, cn.ast_node)
      let condition_str := cc.1
      let action_str := format_assignment_node act_node
      some (Template.multi {
        id := sl "multi_" ++ pdg.state_id ++ sl "_" ++ act_var,
        type := sl "multi",
        state_id := pdg.state_id,
        vars := sensing_vars ++ config_vars ++ [act_var],
        structure_text := sl "IF " ++ condition_str ++ sl " THEN " ++
          action_str,
        sensing_vars := sensing_vars,
        configuration_vars := config_vars,
        actuation_var := act_var,
        condition := condition_str,
        action := action_str,
        condition_ast := cc.2 })

/-- Source `_extract_state_invariants` (pass A: unconditional actuation
assignments). -/
def extract_state_invariants (pdg : PDG) (sv : Option StrL) :
    List Template :=
  pdg.nodes.flatMap fun node =>
    if node.statement_type ≠ sl "assignment" then []
    else if sv_blocks sv node.variables_written then []
    else
      node.variables_written.flatMap fun v =>
        match pdg.varAt v with
        | none => []
        | some vo =>
          if vo.var_type = VariableType.actuation then
            if (get_predecessors pdg.edges node.id (some (sl "control"))).isEmpty
            then
              let value := extract_actuation_value node
              [Template.single {
                id := sl "state_" ++ pdg.state_id ++ sl "_" ++ v,
                type := sl "single",
                state_id := pdg.state_id,
                vars := [v],
                structure_text := sl "In State " ++ pdg.state_id ++ sl ", " ++
                  v ++ sl " = " ++ ovalStr value,
                sensing_var := sl "STATE",
                sensing_var_type := VariableType.internal,
                actuation_var := v,
                operator := sl "=",
                actuation_value := value }]
            else []
          else []

/-- The guard walk of `_extract_inter_state_invariants` (`while True`
over control predecessors); returns the parenthesized condition parts,
outermost first, and the union of the variables read by the visited
condition nodes. On built PDGs each control predecessor has a smaller id
than its successor, so the fuel passed below is never exhausted. -/
def inter_walk : Nat → PDG → Nat → List StrL → List StrL →
    List StrL × List StrL
  | 0, _, _, parts, cvs => (parts, cvs)
  | fuel + 1, pdg, current, parts, cvs =>
    match get_predecessors pdg.edges current (some (sl "control")) with
    | [] => (parts, cvs)
    | parent :: _ =>
      match pdg.nodeAt parent with
      | none => (parts, cvs)
      | some pn =>
        let pe := extract_condition_expression pn
        let parts := if pe.isEmpty then parts
          else (sl "(" ++ pe ++ sl ")") :: parts
        let cvs := addAllIfAbsent cvs pn.variables_read
        inter_walk fuel pdg parent parts cvs

/-- Source `_extract_inter_state_invariants` (pass B). -/
def extract_inter_state_invariants (pdg : PDG) (v : StrL) :
    List Template :=
  (pdg.nodes.filter fun n => v ∈ n.variables_written).flatMap fun node =>
    match extract_actuation_value node with
    | none => []
    | some target =>
      if target.isEmpty then []
      else
        let wr := inter_walk (pdg.nodes.length + pdg.edges.length + 2) pdg
          node.id [] []
        let condition_str :=
          if wr.1.isEmpty then sl "TRUE" else joinWith (sl " AND ") wr.1
        [Template.inter {
          id := sl "inter_" ++ pdg.state_id ++ sl "_to_" ++ target,
          type := sl "inter",
          state_id := pdg.state_id,
          vars := v :: wr.2,
          structure_text := sl "IF " ++ condition_str ++ sl " THEN " ++ v ++
            sl " := " ++ target,
          source_state := pdg.state_id,
          dest_state := target,
          transition_condition := condition_str,
          state_variable := v,
          condition_variables := wr.2 }]

/-- Source `_find_actuation_nodes`. -/
def find_actuation_nodes (pdg : PDG) : List Nat :=
  pdg.nodes.filterMap fun n =>
    if n.variables_written.any (fun v =>
        match pdg.varAt v with
        | some vo => vo.var_type = VariableType.actuation
        | none => false) then
      some n.id
    else none

/-- Source `InvariantExtractor.extract_all_templates`. -/
def extract_all_templates (pdg : PDG) (sv : Option StrL) : List Template :=
  let invariants := extract_state_invariants pdg sv
  let invariants := invariants ++
    (match sv with
     | some v => if v.isEmpty then [] else extract_inter_state_invariants pdg v
     | none => [])
  invariants ++ (find_actuation_nodes pdg).flatMap fun act_node_id =>
    match pdg.nodeAt act_node_id with
    | none => []
    | some act_node =>
      if sv_blocks sv act_node.variables_written then []
      else
        match act_node.variables_written with
        | [] => []
        | act_var :: _ =>
          extract_single_variable_invariants pdg act_node_id act_var ++
          (match extract_multi_variable_invariant pdg act_node_id act_var with
           | some t => [t]
           | none => [])

/-- Dict insertion `pdgs[state_id] = pdg` (replace in place or append). -/
def dict_insert (m : List (StrL × PDG)) (k : StrL) (v : PDG) :
    List (StrL × PDG) :=
  if (m.find? fun p => p.1 = k).isSome then
    m.map fun p => if p.1 = k then (k, v) else p
  else m ++ [(k, v)]

/-- Source `build_all_pdgs`; the variable table (computed in the source
by `extract_variables_from_ast` from the declaration sections, each name
classified by `classify_variable`) is passed in explicitly. -/
def build_all_pdgs (vartable : List (StrL × Variable))
    (program_ast : List Ast) : List (StrL × PDG) × Option StrL :=
  let case_statements := find_all_nodes_in program_ast (sl "case_statement")
  case_statements.foldl
    (fun acc case_stmt =>
      let sv := match acc.2 with
        | none => extract_state_variable case_stmt
        | some v => some v
      let case_elements := find_all_nodes case_stmt (sl "case_element")
      let pdgs := case_elements.foldl
        (fun pdgs case_elem =>
          match extract_state_id case_elem with
          | some sid =>
            if sid.isEmpty then pdgs
            else dict_insert pdgs sid
              (build_pdg_for_state vartable sid case_elem)
          | none => pdgs)
        acc.1
      (pdgs, sv))
    ([], none)

-- ==========================================================================
-- Parser engine (parser.py) and the grammar subset (grammar.py) needed by
-- the statement / expression language.
-- ==========================================================================

/-- Python `\w` on ASCII input. -/
def isWordChar (c : Char) : Bool := c.isAlphanum || c = '_'

/-- `word_regex = re.compile(r"\w+")` (also the `_identifier` rule). -/
def matchWord (s : StrL) : Option StrL :=
  let m := s.takeWhile isWordChar
  if m.isEmpty then none else some m

/-- Greedy `(_?[0-9])*`-style continuation over a character class:
consume `c` or `_c` pairs while the class matches (no backtracking is
needed because an iteration always ends in a class character, on which
any follow-up literal the grammar uses fails as well). -/
def digitsCont (p : Char → Bool) : StrL → StrL
  | [] => []
  | '_' :: d :: rest =>
    if p d then '_' :: d :: digitsCont p rest else []
  | d :: rest =>
    if p d then d :: digitsCont p rest else []

/-- `[0-9](_?[0-9])*`-style match over a character class. -/
def matchClassU (p : Char → Bool) (s : StrL) : Option StrL :=
  match s with
  | d :: rest => if p d then some (d :: digitsCont p rest) else none
  | [] => none

def isBitChar (c : Char) : Bool := c = '0' || c = '1'
def isOctChar (c : Char) : Bool := '0' ≤ c && c ≤ '7'
def isHexUChar (c : Char) : Bool := c.isDigit || ('A' ≤ c && c ≤ 'F')

/-- Optional sign `([+\-])?`. -/
def matchSign (s : StrL) : StrL × StrL :=
  match s with
  | '+' :: rest => (['+'], rest)
  | '-' :: rest => (['-'], rest)
  | _ => ([], s)

/-- Optional exponent `(([eE])([+\-])?([0-9](_?[0-9])*))?`: if the
exponent is incomplete the regex backtracks to the empty option. -/
def matchExpOpt (s : StrL) : StrL × StrL :=
  match s with
  | e :: rest =>
    if e = 'e' || e = 'E' then
      let sg := matchSign rest
      match matchClassU Char.isDigit sg.2 with
      | some m => (e :: sg.1 ++ m, (sg.2).drop m.length)
      | none => ([], s)
    else ([], s)
  | [] => ([], s)

/-- The compiled regexes appearing in the reachable grammar rules; each
constructor names the rule(s) using it. -/
inductive Rex where
  | word
  | integerR
  | fixedPointR
  | realA
  | realB
  | intLit
  | bitStr
  | boolLit
  | sbStr
  | dbStr
  | locPfxR
  | sizePfxR
  | actionNameR
  | commentR
deriving DecidableEq

/-- First position where `stop` occurs; returns (text before, text after
the occurrence). Used for the lazy `.*?` parts of the comment regex. -/
def findStop (stop : StrL) : StrL → Option (StrL × StrL)
  | [] => if isPfx stop [] then some ([], ([] : StrL).drop stop.length) else none
  | c :: rest =>
    if isPfx stop (c :: rest) then some ([], (c :: rest).drop stop.length)
    else
      match findStop stop rest with
      | some (pre, post) => some (c :: pre, post)
      | none => none

/-- Last alternative of the integer-literal regexes:
`([+\-])?[0-9](_?[0-9])*` (signed) or `[0-9](_?[0-9])*`. -/
def runIntTail (signed : Bool) (s : StrL) : Option StrL :=
  let sg := if signed then matchSign s else ([], s)
  match matchClassU Char.isDigit sg.2 with
  | some m => some (sg.1 ++ m)
  | none => none

/-- Second alternative of the comment regex: `\{.*?}`. -/
def runBrace (s : StrL) : Option StrL :=
  match s with
  | '{' :: rest =>
    (match findStop (sl "\x7d") rest with
     | some (body, _) => some ('{' :: body ++ sl "\x7d")
     | none => none)
  | _ => none

/-- One item of the character-string regexes: `[^$\"\']`, the `$`
escapes, or a bare `\"`; returns the consumed item. -/
def sbItem (s : StrL) : Option (StrL × StrL) :=
  match s with
  | [] => none
  | '$' :: rest =>
    match rest with
    | e :: rest2 =>
      if e = '$' || e = 'L' || e = 'N' || e = 'P' || e = 'R' || e = 'T' ||
         e = 'l' || e = 'n' || e = 'p' || e = 'r' || e = 't' || e = '\'' then
        some (['$', e], rest2)
      else
        (match rest with
         | h1 :: h2 :: rest3 =>
           if isHexUChar h1 && isHexUChar h2 then
             some (['$', h1, h2], rest3)
           else none
         | _ => none)
    | [] => none
  | '"' :: rest => some (['"'], rest)
  | c :: rest =>
    if c = '$' || c = '"' || c = '\'' then none else some ([c], rest)

/-- Greedy item loop for the string literals. -/
def sbLoop : Nat → StrL → StrL × StrL
  | 0, s => ([], s)
  | fuel + 1, s =>
    match sbItem s with
    | some (item, rest) =>
      let r := sbLoop fuel rest
      (item ++ r.1, r.2)
    | none => ([], s)

/-- Run a regex at the start of the text, returning the matched prefix
(the semantics of Python `pattern.match(text)` for the specific patterns
of the grammar; alternations are tried left to right, quantifiers are
greedy except for the lazy comment bodies). The string-literal regexes
are matched by maximal item munch followed by the closing quote; full
regex backtracking could differ only when an item (`$'` or `"`) has
consumed a quote character, a corner no input of this development
reaches (both regexes only ever fail here, on texts that do not start
with a quote). -/
def Rex.run : Rex → StrL → Option StrL
  | .word, s => matchWord s
  | .integerR, s => matchClassU Char.isDigit s
  | .fixedPointR, s =>
    (match matchClassU Char.isDigit s with
     | some m1 =>
       (match (s.drop m1.length) with
        | '.' :: r =>
          (match matchClassU Char.isDigit r with
           | some m2 => some (m1 ++ '.' :: m2)
           | none => none)
        | _ => none)
     | none => none)
  | .realA, s =>
    let sg := matchSign s
    (match matchClassU Char.isDigit sg.2 with
     | some m1 =>
       (match ((sg.2).drop m1.length) with
        | '.' :: r =>
          (match matchClassU Char.isDigit r with
           | some m2 =>
             let e := matchExpOpt (r.drop m2.length)
             some (sg.1 ++ m1 ++ '.' :: m2 ++ e.1)
           | none => none)
        | _ => none)
     | none => none)
  | .realB, s =>
    let sg := matchSign s
    (match matchClassU Char.isDigit sg.2 with
     | some m1 =>
       (match ((sg.2).drop m1.length) with
        | e :: r =>
          if e = 'e' || e = 'E' then
            let sg2 := matchSign r
            (match matchClassU Char.isDigit sg2.2 with
             | some m2 => some (sg.1 ++ m1 ++ e :: sg2.1 ++ m2)
             | none => none)
          else none
        | [] => none)
     | none => none)
  | .intLit, s =>
    (match s with
     | '2' :: '#' :: r =>
       (match matchClassU isBitChar r with
        | some m => some ('2' :: '#' :: m)
        | none => runIntTail true s)
     | '8' :: '#' :: r =>
       (match matchClassU isOctChar r with
        | some m => some ('8' :: '#' :: m)
        | none => runIntTail true s)
     | '1' :: '6' :: '#' :: r =>
       (match matchClassU isHexUChar r with
        | some m => some ('1' :: '6' :: '#' :: m)
        | none => runIntTail true s)
     | _ => runIntTail true s)
  | .bitStr, s =>
    (match s with
     | '2' :: '#' :: r =>
       (match matchClassU isBitChar r with
        | some m => some ('2' :: '#' :: m)
        | none => runIntTail false s)
     | '8' :: '#' :: r =>
       (match matchClassU isOctChar r with
        | some m => some ('8' :: '#' :: m)
        | none => runIntTail false s)
     | '1' :: '6' :: '#' :: r =>
       (match matchClassU isHexUChar r with
        | some m => some ('1' :: '6' :: '#' :: m)
        | none => runIntTail false s)
     | _ => runIntTail false s)
  | .boolLit, s =>
    (match s with
     | '1' :: _ => some ['1']
     | '0' :: _ => some ['0']
     | _ =>
       if isPfx (sl "TRUE") s then some (sl "TRUE")
       else if isPfx (sl "FALSE") s then some (sl "FALSE")
       else none)
  | .sbStr, s =>
    (match s with
     | '\'' :: rest =>
       let r := sbLoop (rest.length + 1) rest
       (match r.2 with
        | '\'' :: _ => some ('\'' :: r.1 ++ ['\''])
        | _ => none)
     | _ => none)
  | .dbStr, s =>
    (match s with
     | '"' :: rest =>
       let r := sbLoop (rest.length + 1) rest
       (match r.2 with
        | '"' :: _ => some ('"' :: r.1 ++ ['"'])
        | _ => none)
     | _ => none)
  | .locPfxR, s =>
    (match s with
     | c :: _ => if c = 'I' || c = 'Q' || c = 'M' then some [c] else none
     | [] => none)
  | .sizePfxR, s =>
    (match s with
     | c :: _ =>
       if c = 'X' || c = 'B' || c = 'W' || c = 'D' || c = 'L' then some [c]
       else none
     | [] => none)
  | .actionNameR, s =>
    if isPfx (sl "END_") s then none else matchWord s
  | .commentR, s =>
    (match s with
     | '(' :: '*' :: rest =>
       (match findStop (sl "*)") rest with
        | some (body, _) => some ('(' :: '*' :: body ++ sl "*)")
        | none => runBrace s)
     | _ => runBrace s)

/-- Rule names of the reachable grammar subset. A constructor `a_foo`
embeds the anonymous source rule `_foo` (leading underscore: match
emitted without a tag); `location_pfx` / `size_pfx` embed the rules
tagged `location_prefix` / `size_prefix`. -/
inductive RName where
  | statement_list | a_statement | assignment_statement | method
  | return_statement | a_subprogram_control_statement | fb_invocation
  | fb_name | param_assignment | a_selection_statement | if_statement
  | case_statement | case_element | case_list | case_list_element
  | subrange | enumerated_value | enumerated_type_name
  | a_iteration_statement | for_statement | control_variable | for_list
  | while_statement | repeat_statement | exit_statement | action_name
  | expression | a_xor_expression | a_and_expression | a_comparison
  | a_equ_expression | a_add_expression | a_add_operator | a_term
  | a_multiply_operator | a_power_expression | a_unary_expression
  | a_unary_operator | function_call | a_primary_expression
  | a_function_name | derived_function_name
  | logical_or | logical_xor | logical_and | logical_not | modulo
  | equals | equals_not | less_or_equal | greater_or_equal | less_than
  | greater_than | adding | subtracting | multiply_with | divide_by
  | elevated_by | minus | plus
  | a_variable | a_symbolic_variable | variable_name | a_identifier
  | direct_variable | location_pfx | size_pfx | dereferenced
  | a_subscript | subscript_list | field_selector | multi_element_variable
  | a_constant | a_numeric_literal | integer_literal | real_literal
  | bit_string_literal | boolean_literal | a_character_string
  | single_byte_character_string | double_byte_character_string
  | time_literal | duration | a_interval | days | hours | minutes
  | seconds | milliseconds | fixed_point | integer | time_of_day
  | a_daytime | day_hour | day_minute | day_second | date | date_literal
  | year | month | day | date_and_time
  | integer_type_name | a_signed_integer_type_name
  | a_unsigned_integer_type_name | type_sint | type_int | type_dint
  | type_lint | type_us_int | type_uint | type_u_dint | type_ulint
  | real_type_name | type_real | type_l_real | bit_string_type_name
  | type_bool | type_byte | type_word | type_dword | type_l_word
deriving DecidableEq

mutual

/-- pyPEG pattern values (the structures returned by the grammar rule
functions): literal, keyword, compiled regex, lookaheads, tuple
(sequence with embedded integer quantifiers), list (ordered choice), and
rule reference. -/
inductive Pat where
  | lit (s : StrL)
  | kw (s : StrL)
  | rex (r : Rex)
  | andP (p : Pat)
  | notP (p : Pat)
  | seq (items : List SeqItem)
  | choice (ps : List Pat)
  | ref (r : RName)

inductive SeqItem where
  | num (n : Int)
  | pat (p : Pat)

end

/-- Whether a rule is anonymous (its Python name starts with `_`). -/
def ruleAnon (r : RName) : Bool :=
  match r with
  | .a_statement | .a_subprogram_control_statement | .a_selection_statement
  | .a_iteration_statement | .a_xor_expression | .a_and_expression
  | .a_comparison | .a_equ_expression | .a_add_expression | .a_add_operator
  | .a_term | .a_multiply_operator | .a_power_expression
  | .a_unary_expression | .a_unary_operator | .a_primary_expression
  | .a_function_name | .a_variable | .a_symbolic_variable | .a_identifier
  | .a_subscript | .a_constant | .a_numeric_literal | .a_character_string
  | .a_interval | .a_daytime => true
  | _ => false

/-- The AST tag of a named rule (its Python function name). -/
def ruleTag (r : RName) : StrL :=
  match r with
  | .statement_list => sl "statement_list"
  | .assignment_statement => sl "assignment_statement"
  | .method => sl "method"
  | .return_statement => sl "return_statement"
  | .fb_invocation => sl "fb_invocation"
  | .fb_name => sl "fb_name"
  | .param_assignment => sl "param_assignment"
  | .if_statement => sl "if_statement"
  | .case_statement => sl "case_statement"
  | .case_element => sl "case_element"
  | .case_list => sl "case_list"
  | .case_list_element => sl "case_list_element"
  | .subrange => sl "subrange"
  | .enumerated_value => sl "enumerated_value"
  | .enumerated_type_name => sl "enumerated_type_name"
  | .for_statement => sl "for_statement"
  | .control_variable => sl "control_variable"
  | .for_list => sl "for_list"
  | .while_statement => sl "while_statement"
  | .repeat_statement => sl "repeat_statement"
  | .exit_statement => sl "exit_statement"
  | .action_name => sl "action_name"
  | .expression => sl "expression"
  | .function_call => sl "function_call"
  | .derived_function_name => sl "derived_function_name"
  | .logical_or => sl "logical_or"
  | .logical_xor => sl "logical_xor"
  | .logical_and => sl "logical_and"
  | .logical_not => sl "logical_not"
  | .modulo => sl "modulo"
  | .equals => sl "equals"
  | .equals_not => sl "equals_not"
  | .less_or_equal => sl "less_or_equal"
  | .greater_or_equal => sl "greater_or_equal"
  | .less_than => sl "less_than"
  | .greater_than => sl "greater_than"
  | .adding => sl "adding"
  | .subtracting => sl "subtracting"
  | .multiply_with => sl "multiply_with"
  | .divide_by => sl "divide_by"
  | .elevated_by => sl "elevated_by"
  | .minus => sl "minus"
  | .plus => sl "plus"
  | .variable_name => sl "variable_name"
  | .direct_variable => sl "direct_variable"
  | .location_pfx => sl "location_prefix"
  | .size_pfx => sl "size_prefix"
  | .dereferenced => sl "dereferenced"
  | .subscript_list => sl "subscript_list"
  | .field_selector => sl "field_selector"
  | .multi_element_variable => sl "multi_element_variable"
  | .integer_literal => sl "integer_literal"
  | .real_literal => sl "real_literal"
  | .bit_string_literal => sl "bit_string_literal"
  | .boolean_literal => sl "boolean_literal"
  | .single_byte_character_string => sl "single_byte_character_string"
  | .double_byte_character_string => sl "double_byte_character_string"
  | .time_literal => sl "time_literal"
  | .duration => sl "duration"
  | .days => sl "days"
  | .hours => sl "hours"
  | .minutes => sl "minutes"
  | .seconds => sl "seconds"
  | .milliseconds => sl "milliseconds"
  | .fixed_point => sl "fixed_point"
  | .integer => sl "integer"
  | .time_of_day => sl "time_of_day"
  | .day_hour => sl "day_hour"
  | .day_minute => sl "day_minute"
  | .day_second => sl "day_second"
  | .date => sl "date"
  | .date_literal => sl "date_literal"
  | .year => sl "year"
  | .month => sl "month"
  | .day => sl "day"
  | .date_and_time => sl "date_and_time"
  | .integer_type_name => sl "integer_type_name"
  | .type_sint => sl "type_sint"
  | .type_int => sl "type_int"
  | .type_dint => sl "type_dint"
  | .type_lint => sl "type_lint"
  | .type_us_int => sl "type_us_int"
  | .type_uint => sl "type_uint"
  | .type_u_dint => sl "type_u_dint"
  | .type_ulint => sl "type_ulint"
  | .real_type_name => sl "real_type_name"
  | .type_real => sl "type_real"
  | .type_l_real => sl "type_l_real"
  | .bit_string_type_name => sl "bit_string_type_name"
  | .type_bool => sl "type_bool"
  | .type_byte => sl "type_byte"
  | .type_word => sl "type_word"
  | .type_dword => sl "type_dword"
  | .type_l_word => sl "type_l_word"
  | _ => sl ""

/-- Shorthand for sequence items. -/
def iP (p : Pat) : SeqItem := SeqItem.pat p
def iN (n : Int) : SeqItem := SeqItem.num n
def rP (r : RName) : SeqItem := SeqItem.pat (Pat.ref r)
def lP (s : String) : SeqItem := SeqItem.pat (Pat.lit (sl s))
def kP (s : String) : SeqItem := SeqItem.pat (Pat.kw (sl s))

/-- The grammar: each rule's returned pyPEG value, transcribed from
grammar.py (tuple → `seq`, list → `choice`, string → `lit`,
`Keyword(..)` → `kw`, `re.compile(..)` → `rex`, function reference →
`ref`). -/
def rules (r : RName) : Pat :=
  match r with
  | .statement_list => .seq [rP .a_statement, iN (-1), rP .a_statement]
  | .a_statement => .choice
      [.seq [lP ";", iN (-1), lP ";"],
       .ref .method,
       .ref .assignment_statement,
       .ref .a_subprogram_control_statement,
       .ref .a_selection_statement,
       .ref .a_iteration_statement,
       .seq [rP .action_name, lP ";"]]
  | .assignment_statement => .seq [rP .a_variable, lP ":=", rP .expression, lP ";"]
  | .method => .seq [rP .expression, lP "(", lP ")", lP ";"]
  | .return_statement => .seq [kP "RETURN", iN 0, lP ";"]
  | .a_subprogram_control_statement => .choice
      [.ref .return_statement, .seq [rP .fb_invocation, lP ";"]]
  | .fb_invocation => .seq
      [rP .fb_name, lP "(", iN 0,
       iP (.seq [rP .param_assignment, iN (-1),
                 iP (.seq [lP ",", rP .param_assignment])]),
       lP ")"]
  | .fb_name => .ref .a_identifier
  | .param_assignment => .choice
      [.seq [iN 0, kP "NOT", rP .variable_name, lP "=>", rP .a_variable],
       .seq [iN 0, iP (.seq [rP .variable_name, lP ":="]), rP .expression]]
  | .a_selection_statement => .choice [.ref .if_statement, .ref .case_statement]
  | .if_statement => .seq
      [kP "IF", rP .expression, kP "THEN", rP .statement_list,
       iN (-1),
       iP (.seq [kP "ELSIF", rP .expression, kP "THEN", rP .statement_list]),
       iN 0, iP (.seq [kP "ELSE", rP .statement_list]),
       kP "END_IF", iN 0, lP ";"]
  | .case_statement => .seq
      [kP "CASE", rP .expression, kP "OF", rP .case_element,
       iN (-1), rP .case_element,
       iN 0, iP (.seq [kP "ELSE", rP .statement_list]),
       kP "END_CASE", iN 0, lP ";"]
  | .case_element => .seq [rP .case_list, lP ":", rP .statement_list]
  | .case_list => .seq
      [rP .case_list_element, iN (-1),
       iP (.seq [lP ",", rP .case_list_element])]
  | .case_list_element => .choice
      [.ref .subrange, .ref .integer_literal, .ref .enumerated_value]
  | .subrange => .seq [rP .expression, lP "..", rP .expression]
  | .enumerated_value => .seq
      [iN 0, iP (.seq [rP .enumerated_type_name, lP "#"]),
       rP .a_identifier, iN 0, iP (.seq [lP ":=", rP .integer_literal])]
  | .enumerated_type_name => .ref .a_identifier
  | .a_iteration_statement => .choice
      [.ref .for_statement, .ref .while_statement, .ref .repeat_statement,
       .ref .exit_statement]
  | .for_statement => .seq
      [kP "FOR", rP .control_variable, lP ":=", rP .for_list, kP "DO",
       rP .statement_list, kP "END_FOR", iN 0, lP ";"]
  | .control_variable => .ref .a_identifier
  | .for_list => .seq
      [rP .expression, kP "TO", rP .expression, iN 0,
       iP (.seq [kP "BY", rP .expression])]
  | .while_statement => .seq
      [kP "WHILE", rP .expression, kP "DO", rP .statement_list,
       kP "END_WHILE", iN 0, lP ";"]
  | .repeat_statement => .seq
      [kP "REPEAT", rP .statement_list, kP "UNTIL", rP .expression,
       kP "END_REPEAT", iN 0, lP ";"]
  | .exit_statement => .seq [kP "EXIT", iN 0, lP ";"]
  | .action_name => .rex .actionNameR
  | .expression => .seq
      [rP .a_xor_expression, iN (-1),
       iP (.seq [rP .logical_or, rP .a_xor_expression])]
  | .a_xor_expression => .seq
      [rP .a_and_expression, iN (-1),
       iP (.seq [rP .logical_xor, rP .a_and_expression])]
  | .a_and_expression => .seq
      [rP .a_comparison, iN (-1),
       iP (.seq [rP .logical_and, rP .a_comparison])]
  | .a_comparison => .seq
      [rP .a_equ_expression, iN (-1),
       iP (.seq [iP (.choice [.ref .equals, .ref .equals_not]),
                 rP .a_equ_expression])]
  | .a_equ_expression => .seq
      [rP .a_add_expression, iN (-1),
       iP (.seq [iP (.choice [.ref .less_or_equal, .ref .greater_or_equal,
                              .ref .less_than, .ref .greater_than]),
                 rP .a_add_expression])]
  | .a_add_expression => .seq
      [rP .a_term, iN (-1), iP (.seq [rP .a_add_operator, rP .a_term])]
  | .a_add_operator => .choice [.ref .adding, .ref .subtracting]
  | .a_term => .seq
      [rP .a_power_expression, iN (-1),
       iP (.seq [rP .a_multiply_operator, rP .a_power_expression])]
  | .a_multiply_operator => .choice
      [.ref .modulo, .ref .multiply_with, .ref .divide_by]
  | .a_power_expression => .seq
      [rP .a_unary_expression, iN (-1),
       iP (.seq [rP .elevated_by, rP .a_unary_expression])]
  | .a_unary_expression => .choice
      [.ref .a_constant,
       .seq [iN 0, rP .a_unary_operator, rP .a_primary_expression]]
  | .a_unary_operator => .choice [.ref .logical_not, .ref .minus, .ref .plus]
  | .function_call => .seq
      [rP .a_function_name, lP "(", iN 0,
       iP (.seq [rP .param_assignment, iN (-1),
                 iP (.seq [lP ",", rP .param_assignment])]),
       lP ")"]
  | .a_primary_expression => .choice
      [.seq [lP "(", rP .expression, lP ")"],
       .ref .function_call, .ref .a_variable]
  | .a_function_name => .ref .derived_function_name
  | .derived_function_name => .ref .a_identifier
  | .logical_or => .kw (sl "OR")
  | .logical_xor => .kw (sl "XOR")
  | .logical_and => .kw (sl "AND")
  | .logical_not => .kw (sl "NOT")
  | .modulo => .kw (sl "MOD")
  | .equals => .lit (sl "=")
  | .equals_not => .lit (sl "<>")
  | .less_or_equal => .lit (sl "<=")
  | .greater_or_equal => .lit (sl ">=")
  | .less_than => .lit (sl "<")
  | .greater_than => .lit (sl ">")
  | .adding => .lit (sl "+")
  | .subtracting => .lit (sl "-")
  | .multiply_with => .lit (sl "*")
  | .divide_by => .lit (sl "/")
  | .elevated_by => .lit (sl "**")
  | .minus => .lit (sl "-")
  | .plus => .lit (sl "+")
  | .a_variable => .choice [.ref .direct_variable, .ref .a_symbolic_variable]
  | .a_symbolic_variable => .choice
      [.ref .multi_element_variable, .ref .variable_name]
  | .variable_name => .seq [rP .a_identifier, iN 0, rP .dereferenced]
  | .a_identifier => .rex .word
  | .direct_variable => .seq
      [lP "%", rP .location_pfx, iN 0, rP .size_pfx, rP .integer,
       iN (-1), iP (.seq [lP ".", rP .integer])]
  | .location_pfx => .rex .locPfxR
  | .size_pfx => .rex .sizePfxR
  | .dereferenced => .lit (sl "^")
  | .a_subscript => .ref .expression
  | .subscript_list => .seq
      [lP "[", rP .a_subscript, iN (-1),
       iP (.seq [lP ",", rP .a_subscript]), lP "]"]
  | .field_selector => .seq
      [iN 0, rP .dereferenced, lP ".", rP .variable_name]
  | .multi_element_variable => .seq
      [rP .variable_name,
       iP (.choice [.ref .subscript_list, .ref .field_selector]),
       iN (-1),
       iP (.choice [.ref .subscript_list, .ref .field_selector])]
  | .a_constant => .choice
      [.ref .time_literal, .ref .a_numeric_literal, .ref .a_character_string,
       .ref .bit_string_literal, .ref .boolean_literal]
  | .a_numeric_literal => .choice [.ref .real_literal, .ref .integer_literal]
  | .integer_literal => .seq
      [iN 0, iP (.seq [rP .integer_type_name, lP "#"]), iP (.rex .intLit)]
  | .real_literal => .choice
      [.seq [iN 0, iP (.seq [rP .real_type_name, lP "#"]), iP (.rex .realA)],
       .seq [iN 0, iP (.seq [rP .real_type_name, lP "#"]), iP (.rex .realB)]]
  | .bit_string_literal => .seq
      [iN 0, iP (.seq [rP .bit_string_type_name, lP "#"]), iP (.rex .bitStr)]
  | .boolean_literal => .seq [iN 0, lP "BOOL#", iP (.rex .boolLit)]
  | .a_character_string => .choice
      [.ref .single_byte_character_string, .ref .double_byte_character_string]
  | .single_byte_character_string => .rex .sbStr
  | .double_byte_character_string => .rex .dbStr
  | .time_literal => .choice
      [.ref .duration, .ref .time_of_day, .ref .date, .ref .date_and_time]
  | .duration => .seq
      [iP (.choice [.lit (sl "TIME"), .lit (sl "T"), .lit (sl "t")]),
       lP "#", iN 0, lP "-", rP .a_interval]
  | .a_interval => .choice
      [.ref .days, .ref .hours, .ref .minutes, .ref .seconds,
       .ref .milliseconds]
  | .days => .choice
      [.seq [rP .fixed_point, lP "d"],
       .seq [rP .integer, lP "d", iN 0, lP "_", rP .hours],
       .seq [rP .integer, lP "d"]]
  | .hours => .choice
      [.seq [rP .fixed_point, lP "h"],
       .seq [rP .integer, lP "h", iN 0, lP "_", rP .minutes],
       .seq [rP .integer, lP "h"]]
  | .minutes => .choice
      [.seq [rP .fixed_point, lP "m"],
       .seq [iP (.seq [rP .integer, lP "m", iN 0, lP "_", rP .seconds]),
             iP (.seq [rP .integer, lP "m"])]]
  | .seconds => .choice
      [.seq [rP .fixed_point, lP "s"],
       .seq [rP .integer, lP "s", iN 0, lP "_", rP .milliseconds],
       .seq [rP .integer, lP "s"]]
  | .milliseconds => .choice
      [.seq [rP .fixed_point, lP "ms"], .seq [rP .integer, lP "ms"]]
  | .fixed_point => .rex .fixedPointR
  | .integer => .rex .integerR
  | .time_of_day => .seq
      [iP (.choice [.lit (sl "TIME_OF_DAY"), .lit (sl "TOD")]), lP "#",
       rP .a_daytime]
  | .a_daytime => .seq
      [rP .day_hour, lP ":", rP .day_minute, lP ":", rP .day_second]
  | .day_hour => .ref .integer
  | .day_minute => .ref .integer
  | .day_second => .ref .fixed_point
  | .date => .seq
      [iP (.choice [.lit (sl "DATE"), .lit (sl "D"), .lit (sl "d")]),
       lP "#", rP .date_literal]
  | .date_literal => .seq [rP .year, lP "-", rP .month, lP "-", rP .day]
  | .year => .ref .integer
  | .month => .ref .integer
  | .day => .ref .integer
  | .date_and_time => .seq
      [iP (.choice [.lit (sl "DATE_AND_TIME"), .lit (sl "DT")]), lP "#",
       rP .date_literal, lP "-", rP .a_daytime]
  | .integer_type_name => .choice
      [.ref .a_signed_integer_type_name, .ref .a_unsigned_integer_type_name]
  | .a_signed_integer_type_name => .choice
      [.ref .type_sint, .ref .type_int, .ref .type_dint, .ref .type_lint]
  | .a_unsigned_integer_type_name => .choice
      [.ref .type_us_int, .ref .type_uint, .ref .type_u_dint, .ref .type_ulint]
  | .type_sint => .kw (sl "SINT")
  | .type_int => .kw (sl "INT")
  | .type_dint => .kw (sl "DINT")
  | .type_lint => .kw (sl "LINT")
  | .type_us_int => .kw (sl "USINT")
  | .type_uint => .kw (sl "UINT")
  | .type_u_dint => .kw (sl "UDINT")
  | .type_ulint => .kw (sl "ULINT")
  | .real_type_name => .choice [.ref .type_real, .ref .type_l_real]
  | .type_real => .kw (sl "REAL")
  | .type_l_real => .kw (sl "LREAL")
  | .bit_string_type_name => .choice
      [.ref .type_bool, .ref .type_byte, .ref .type_word, .ref .type_dword,
       .ref .type_l_word]
  | .type_bool => .kw (sl "BOOL")
  | .type_byte => .kw (sl "BYTE")
  | .type_word => .kw (sl "WORD")
  | .type_dword => .kw (sl "DWORD")
  | .type_l_word => .kw (sl "LWORD")

/-- The default comment pattern of the CLI:
`re.compile(r"(\(\*.*?\*\))|(\{.*?})", re.S)`. -/
def default_comment_pattern : Pat := .rex .commentR

-- ==========================================================================
-- The recursive-descent engine (`Parser.parse_line`, `skip`).
-- ==========================================================================

/-- Parser state: the tracked minimum remaining-text length (`-1` until
the first result is packaged). -/
structure PSt where
  rest_length : Int
deriving DecidableEq

/-- Outcome of `parse_line`: the frame's contribution to the AST and the
remaining text (success), a `SyntaxError` (failure), or fuel exhaustion
(`fatal`, propagated irrecoverably: a non-fatal outcome was computed
without ever running out of fuel). -/
inductive POut where
  | ok (contrib : List Ast) (text : StrL)
  | fail
  | fatal

/-- Result packaging `r(...)`: update the minimum remaining length. The
frame's contribution is handled by the caller (`r` extends the caller's
result list; named-rule wrapping happens in the `ref` case). -/
def finishFrame (st : PSt) (contrib : List Ast) (text : StrL) :
    PSt × POut :=
  let len : Int := text.length
  let rl := if st.rest_length = -1 then len else min st.rest_length len
  (⟨rl⟩, .ok contrib text)

/-- Outcome of the `-1`/`-2` loops: accumulated contribution, remaining
text, and whether at least one iteration succeeded; `none` = fatal. -/
def StarOut := Option (List Ast × StrL × Bool)

mutual

/-- Source `Parser.parse_line` (with `input_length = 0`: position output
is never requested by the pipeline). Whitespace/comment skipping happens
at frame entry as in the source; the comment skipper is a separate
parser whose `rest_length` is discarded. -/
def parseLineF : Nat → PSt → StrL → Pat → Bool → Option Pat → PSt × POut
  | 0, st, _, _, _, _ => (st, .fatal)
  | fuel + 1, st, textLine, pat, skipWs, skc =>
    match pat with
    | .ref r =>
      (match parseLineF fuel st textLine (rules r) skipWs skc with
       | (st, .ok contrib rest) =>
         if ruleAnon r then (st, .ok contrib rest)
         else (st, .ok [Ast.node (ruleTag r) contrib] rest)
       | other => other)
    | .lit s =>
      (match skipF fuel skipWs skc textLine with
       | none => (st, .fatal)
       | some t =>
         if isPfx s t then
           (match skipF fuel skipWs skc (t.drop s.length) with
            | none => (st, .fatal)
            | some t2 => finishFrame st [] t2)
         else (st, .fail))
    | .kw s =>
      (match skipF fuel skipWs skc textLine with
       | none => (st, .fatal)
       | some t =>
         (match matchWord t with
          | some w =>
            if w = s then
              (match skipF fuel skipWs skc (t.drop s.length) with
               | none => (st, .fatal)
               | some t2 => finishFrame st [] t2)
            else (st, .fail)
          | none => (st, .fail)))
    | .rex r =>
      (match skipF fuel skipWs skc textLine with
       | none => (st, .fatal)
       | some t =>
         (match r.run t with
          | some m =>
            (match skipF fuel skipWs skc (t.drop m.length) with
             | none => (st, .fatal)
             | some t2 => finishFrame st [Ast.leaf m] t2)
          | none => (st, .fail)))
    | .notP p =>
      (match skipF fuel skipWs skc textLine with
       | none => (st, .fatal)
       | some t =>
         (match parseLineF fuel st t p skipWs skc with
          | (st, .ok _ _) => (st, .fail)
          | (st, .fail) => (st, .ok [] textLine)
          | (st, .fatal) => (st, .fatal)))
    | .andP p =>
      (match skipF fuel skipWs skc textLine with
       | none => (st, .fatal)
       | some t =>
         (match parseLineF fuel st t p skipWs skc with
          | (st, .ok _ _) => (st, .ok [] textLine)
          | (st, .fail) => (st, .fail)
          | (st, .fatal) => (st, .fatal)))
    | .seq items =>
      (match skipF fuel skipWs skc textLine with
       | none => (st, .fatal)
       | some t =>
         (match seqItemsF fuel st t items [] 1 skipWs skc with
          | (st, .ok acc rest) => finishFrame st acc rest
          | other => other))
    | .choice ps =>
      (match skipF fuel skipWs skc textLine with
       | none => (st, .fatal)
       | some t =>
         (match choiceF fuel st t ps skipWs skc with
          | (st, .ok contrib rest) => finishFrame st contrib rest
          | other => other))

/-- Source `skip`: strip whitespace, then repeatedly parse one comment
(via the auxiliary skipper parser, whose own comment skipping is `None`
and whose state is separate from the main parser's). -/
def skipF : Nat → Bool → Option Pat → StrL → Option StrL
  | 0, _, _, _ => none
  | fuel + 1, skipWs, skc, text =>
    let t := if skipWs then pyStrip text else text
    match skc with
    | none => some t
    | some pat =>
      (match parseLineF fuel ⟨-1⟩ t pat skipWs none with
       | (_, .ok _ t2) => skipF fuel skipWs skc t2
       | (_, .fail) => some t
       | (_, .fatal) => none)

/-- Sequence matching (case 3f of `parse_line`): process the tuple's
items, an integer setting the quantifier for the next sub-pattern, which
then resets to 1. -/
def seqItemsF : Nat → PSt → StrL → List SeqItem → List Ast → Int → Bool →
    Option Pat → PSt × POut
  | 0, st, _, _, _, _, _, _ => (st, .fatal)
  | _ + 1, st, text, [], acc, _, _, _ => (st, .ok acc text)
  | fuel + 1, st, text, .num k :: rest, acc, _, skipWs, skc =>
    seqItemsF fuel st text rest acc k skipWs skc
  | fuel + 1, st, text, .pat p :: rest, acc, n, skipWs, skc =>
    if 0 < n then
      match repeatNF fuel st text p acc n.toNat skipWs skc with
      | (st, .ok acc2 t2) => seqItemsF fuel st t2 rest acc2 1 skipWs skc
      | other => other
    else if n = 0 then
      match parseLineF fuel st text p skipWs skc with
      | (st, .ok contrib t2) =>
        seqItemsF fuel st t2 rest (acc ++ contrib) 1 skipWs skc
      | (st, .fail) => seqItemsF fuel st text rest acc 1 skipWs skc
      | (st, .fatal) => (st, .fatal)
    else
      match starF fuel st text p acc false skipWs skc with
      | (st, none) => (st, .fatal)
      | (st, some (acc2, t2, found)) =>
        if n = -2 && !found then (st, .fail)
        else seqItemsF fuel st t2 rest acc2 1 skipWs skc

/-- Fixed repetition (quantifier `n > 0`). -/
def repeatNF : Nat → PSt → StrL → Pat → List Ast → Nat → Bool →
    Option Pat → PSt × POut
  | 0, st, _, _, _, _, _, _ => (st, .fatal)
  | _ + 1, st, text, _, acc, 0, _, _ => (st, .ok acc text)
  | fuel + 1, st, text, p, acc, k + 1, skipWs, skc =>
    match parseLineF fuel st text p skipWs skc with
    | (st, .ok contrib t2) => repeatNF fuel st t2 p (acc ++ contrib) k skipWs skc
    | other => other

/-- The `-1` / `-2` loop: iterate until the sub-pattern fails. -/
def starF : Nat → PSt → StrL → Pat → List Ast → Bool → Bool →
    Option Pat → PSt × StarOut
  | 0, st, _, _, _, _, _, _ => (st, none)
  | fuel + 1, st, text, p, acc, found, skipWs, skc =>
    match parseLineF fuel st text p skipWs skc with
    | (st, .ok contrib t2) =>
      starF fuel st t2 p (acc ++ contrib) true skipWs skc
    | (st, .fail) => (st, some (acc, text, found))
    | (st, .fatal) => (st, none)

/-- Ordered choice (case 3g): first success wins. -/
def choiceF : Nat → PSt → StrL → List Pat → Bool → Option Pat → PSt × POut
  | 0, st, _, _, _, _ => (st, .fatal)
  | _ + 1, st, _, [], _, _ => (st, .fail)
  | fuel + 1, st, text, p :: ps, skipWs, skc =>
    match parseLineF fuel st text p skipWs skc with
    | (st, .ok contrib t2) => (st, .ok contrib t2)
    | (st, .fail) => choiceF fuel st text ps skipWs skc
    | (st, .fatal) => (st, .fatal)

end

-- ==========================================================================
-- Top-level `parse` (parser.py) over a `StringLineSource` (core.py).
-- ==========================================================================

/-- Python `str.splitlines(keepends=True)` for the line endings used by
the inputs of this development (`\n`, `\r\n`, `\r`); `cur` holds the
current line in reverse. -/
def splitKeepGo (cur : StrL) : StrL → List StrL
  | [] => if cur.isEmpty then [] else [cur.reverse]
  | '\x0d' :: '\n' :: rest =>
    (cur.reverse ++ ['\x0d', '\n']) :: splitKeepGo [] rest
  | '\n' :: rest => (cur.reverse ++ ['\n']) :: splitKeepGo [] rest
  | '\x0d' :: rest => (cur.reverse ++ ['\x0d']) :: splitKeepGo [] rest
  | c :: rest => splitKeepGo (c :: cur) rest

def splitKeep (s : StrL) : List StrL := splitKeepGo [] s

/-- Strip one trailing line terminator. -/
def stripEol (s : StrL) : StrL :=
  if isSfx (sl "\x0d\n") s then s.take (s.length - 2)
  else if isSfx (sl "\n") s || isSfx (sl "\x0d") s then s.take (s.length - 1)
  else s

/-- Python `str.splitlines()` (no keepends). -/
def pySplitLines (s : StrL) : List StrL := (splitKeep s).map stripEol

/-- The `lines` list built by `parse`: one `(start offset, line number)`
pair per line; with a `StringLineSource` the numbers are 1, 2, 3, ... -/
def buildLineOffsets (content : StrL) : List (Nat × Nat) :=
  go 0 1 (splitKeep content)
where
  go (off ld : Nat) : List StrL → List (Nat × Nat)
    | [] => []
    | l :: ls => (off, ld) :: go (off + l.length) (ld + 1) ls

/-- The error-line loop of `parse`'s `except SyntaxError` handler. -/
def errLineLoop (parsed : Int) : List (Nat × Nat) → Nat → Nat
  | [], acc => acc
  | (n, ld) :: rest, acc =>
    if (n : Int) ≥ parsed then
      (if (n : Int) = parsed then acc + 1 else acc)
    else errLineLoop parsed rest ld

/-- Python list indexing with negative-index semantics; `none` models an
`IndexError`. -/
def pyIndex (l : List StrL) (i : Int) : Option StrL :=
  if 0 ≤ i then l.get? i.toNat
  else
    let j : Int := (l.length : Int) + i
    if 0 ≤ j then l.get? j.toNat else none

/-- The reported `SyntaxError`: 1-based line number and the line's text
(as in `f"syntax error in {file}:{line_no}: {line_cont}"`). -/
structure SynErr where
  line_no : Nat
  line_text : Option StrL
deriving DecidableEq

/-- Error construction of `parse`: `parsed = text_len - p.rest_length`,
then the line loop, then `orig.splitlines()[line_no - 1]`. -/
def computeSynErr (content : StrL) (rl : Int) : SynErr :=
  let text_len : Int := content.length
  let parsed : Int := text_len - rl
  let line_no := errLineLoop parsed (buildLineOffsets content) 0
  ⟨line_no, pyIndex (pySplitLines content) ((line_no : Int) - 1)⟩

inductive ParseResult where
  | ok (ast : List Ast)
  | err (e : SynErr)
  | fatal

/-- The lazy top-level resolution of `parse`
(`while type(language) is function: language = language()`),
which drops the top-level rule's name. -/
def resolveTop : Nat → Pat → Option Pat
  | 0, _ => none
  | fuel + 1, .ref r => resolveTop fuel (rules r)
  | _ + 1, p => some p

/-- Source `parse(language, line_source, skip_ws, skip_comments)` over a
`StringLineSource(content)`: skip, run the top-level pattern, demand
that the remaining text is empty, and on any `SyntaxError` report the
line computed from the tracked minimum remaining length. -/
def parseStringF (fuel : Nat) (lang : Pat) (content : StrL)
    (skipWs : Bool) (skc : Option Pat) : ParseResult :=
  match resolveTop fuel lang with
  | none => .fatal
  | some lp =>
    match skipF fuel skipWs skc content with
    | none => .fatal
    | some t0 =>
      match parseLineF fuel ⟨-1⟩ t0 lp skipWs skc with
      | (st, .ok res rest) =>
        if rest.isEmpty then .ok res
        else .err (computeSynErr content st.rest_length)
      | (st, .fail) => .err (computeSynErr content st.rest_length)
      | (_, .fatal) => .fatal

-- ==========================================================================
-- Concrete artifacts used by the claims.
-- ==========================================================================

/-- A variable-table entry as `extract_variables_from_ast` builds it: the
role comes from `classify_variable` on the declared name and scope. -/
def mk_var (n : String) (scope : String) (dtype : String) :
    StrL × Variable :=
  (sl n, { name := sl n, var_type := classify_variable (sl n) (sl scope),
           data_type := sl dtype, scope := sl scope })

/-- Variable table of the program declaring
`VAR_INPUT H_Sensor : REAL; END_VAR` and
`VAR_OUTPUT H_Actuator : BOOL; END_VAR`. -/
def c1_vartable : List (StrL × Variable) :=
  [mk_var "H_Sensor" "input" "REAL", mk_var "H_Actuator" "output" "BOOL"]

/-- The parse tree of the body
`CASE st OF 10: IF H_Sensor <= 100 THEN H_Actuator := FALSE; END_IF; END_CASE;`
(the embedded parser and grammar produce exactly this value on that
text; see the single-token conjuncts of the C1 theorem for the shape of
the comparison-operator nodes, which the grammar emits childless,
between their operand siblings). -/
def c1_case : Ast :=
  .node (sl "case_statement")
    [.node (sl "expression") [.node (sl "variable_name") [.leaf (sl "st")]],
     .node (sl "case_element")
       [.node (sl "case_list")
          [.node (sl "case_list_element")
             [.node (sl "integer_literal") [.leaf (sl "10")]]],
        .node (sl "statement_list")
          [.node (sl "if_statement")
             [.node (sl "expression")
                [.node (sl "variable_name") [.leaf (sl "H_Sensor")],
                 .node (sl "less_or_equal") [],
                 .node (sl "integer_literal") [.leaf (sl "100")]],
              .node (sl "statement_list")
                [.node (sl "assignment_statement")
                   [.node (sl "variable_name") [.leaf (sl "H_Actuator")],
                    .node (sl "expression")
                      [.node (sl "boolean_literal") [.leaf (sl "FALSE")]]]]]]]]

/-- The case element of `c1_case`. -/
def c1_elem : Ast :=
  match get_children c1_case with
  | [_, e] => e
  | _ => .leaf []

def c1_pdg : PDG := build_pdg_for_state c1_vartable (sl "10") c1_elem

def c1_sv : Option StrL := extract_state_variable c1_case

def c1_templates : List Template := extract_all_templates c1_pdg c1_sv

/-- The parse tree of the expression `A <> B` (the embedded parser and
grammar produce exactly this value on that text; the first conjunct of
the C2 theorem checks the `equals_not` operator token). -/
def c2_expr : Ast :=
  .node (sl "expression")
    [.node (sl "variable_name") [.leaf (sl "A")],
     .node (sl "equals_not") [],
     .node (sl "variable_name") [.leaf (sl "B")]]

/-- The parse tree of the body
`CASE st OF 10: IF A=1 THEN IF B=2 THEN st := 20; END_IF; END_IF; END_CASE;`
(the embedded parser and grammar produce exactly this value on that
text). -/
def c6_case : Ast :=
  .node (sl "case_statement")
    [.node (sl "expression") [.node (sl "variable_name") [.leaf (sl "st")]],
     .node (sl "case_element")
       [.node (sl "case_list")
          [.node (sl "case_list_element")
             [.node (sl "integer_literal") [.leaf (sl "10")]]],
        .node (sl "statement_list")
          [.node (sl "if_statement")
             [.node (sl "expression")
                [.node (sl "variable_name") [.leaf (sl "A")],
                 .node (sl "equals") [],
                 .node (sl "integer_literal") [.leaf (sl "1")]],
              .node (sl "statement_list")
                [.node (sl "if_statement")
                   [.node (sl "expression")
                      [.node (sl "variable_name") [.leaf (sl "B")],
                       .node (sl "equals") [],
                       .node (sl "integer_literal") [.leaf (sl "2")]],
                    .node (sl "statement_list")
                      [.node (sl "assignment_statement")
                         [.node (sl "variable_name") [.leaf (sl "st")],
                          .node (sl "expression")
                            [.node (sl "integer_literal")
                               [.leaf (sl "20")]]]]]]]]]]

def c6_elem : Ast :=
  match get_children c6_case with
  | [_, e] => e
  | _ => .leaf []

def c6_pdg : PDG := build_pdg_for_state [] (sl "10") c6_elem

def c6_sv : Option StrL := extract_state_variable c6_case

def c6_templates : List Template := extract_all_templates c6_pdg c6_sv

/-- A case element with two assignments `H_Actuator := H_Sensor;`
(a body a PDG is built from to exhibit duplicated multi-template ids:
two distinct assignment nodes writing the same actuation variable). -/
def two_writer_elem : Ast :=
  .node (sl "case_element")
    [.node (sl "case_list")
       [.node (sl "case_list_element")
          [.node (sl "integer_literal") [.leaf (sl "10")]]],
     .node (sl "statement_list")
       [.node (sl "assignment_statement")
          [.node (sl "variable_name") [.leaf (sl "H_Actuator")],
           .node (sl "expression")
             [.node (sl "variable_name") [.leaf (sl "H_Sensor")]]],
        .node (sl "assignment_statement")
          [.node (sl "variable_name") [.leaf (sl "H_Actuator")],
           .node (sl "expression")
             [.node (sl "variable_name") [.leaf (sl "H_Sensor")]]]]]

def two_writer_pdg : PDG :=
  build_pdg_for_state c1_vartable (sl "10") two_writer_elem

def two_writer_templates : List Template :=
  extract_all_templates two_writer_pdg (some (sl "st"))

/-- The guard computed by the control-predecessor walk of
`_extract_inter_state_invariants`: parenthesized conditions joined by
`" AND "`, or `"TRUE"` when the node has no control predecessor. -/
def guard_string (pdg : PDG) (nid : Nat) : StrL :=
  let wr := inter_walk (pdg.nodes.length + pdg.edges.length + 2) pdg nid [] []
  if wr.1.isEmpty then sl "TRUE" else joinWith (sl " AND ") wr.1

/-- The condition-variable union collected by the same walk. -/
def guard_cvars (pdg : PDG) (nid : Nat) : List StrL :=
  (inter_walk (pdg.nodes.length + pdg.edges.length + 2) pdg nid [] []).2

/-- A small PDG exercising the pruning: control edges 0→1, 0→2 and 1→2,
so the transitive edge 0→2 is redundant. -/
def c10_pdg : PDG :=
  { state_id := sl "10",
    nodes := [
      { id := 0, statement := sl "c0", statement_type := sl "condition",
        variables_read := [], variables_written := [] },
      { id := 1, statement := sl "c1", statement_type := sl "condition",
        variables_read := [], variables_written := [] },
      { id := 2, statement := sl "a2", statement_type := sl "assignment",
        variables_read := [], variables_written := [] }],
    edges := [
      { from_node := 0, to_node := 1, edge_type := sl "control" },
      { from_node := 0, to_node := 2, edge_type := sl "control" },
      { from_node := 1, to_node := 2, edge_type := sl "control" }],
    vartable := [], next_node_id := 3 }

/-- Structural invariant of the PDGs produced by the node-creation phase
(`_create_nodes_from_statements` and its helpers): node ids are the
positions `0..next_node_id-1`; every edge is a `control` edge going
strictly forward to an existing node; any two control predecessors of a
node are themselves connected by an edge (the cone construction links a
condition to every node of its block, so predecessor sets are chains);
predecessor sets are closed downward under edges; and no (from, to) pair
occurs twice. -/
structure BuildInv (pdg : PDG) : Prop where
  ids : pdg.nodes.map PDGNode.id = List.range pdg.next_node_id
  ctl : ∀ e ∈ pdg.edges, e.edge_type = sl "control"
  asc : ∀ e ∈ pdg.edges, e.from_node < e.to_node
  below : ∀ e ∈ pdg.edges, e.to_node < pdg.next_node_id
  chain : ∀ e1 ∈ pdg.edges, ∀ e2 ∈ pdg.edges, e1.to_node = e2.to_node →
    e1.from_node < e2.from_node →
    ∃ e3 ∈ pdg.edges, e3.from_node = e1.from_node ∧ e3.to_node = e2.from_node
  down : ∀ e1 ∈ pdg.edges, ∀ e2 ∈ pdg.edges, e2.to_node = e1.from_node →
    ∃ e3 ∈ pdg.edges, e3.from_node = e2.from_node ∧ e3.to_node = e1.to_node
  nodup : List.Pairwise
    (fun e1 e2 => ¬(e1.from_node = e2.from_node ∧ e1.to_node = e2.to_node))
    pdg.edges

/-- Relation between the PDG before and after a node-creation step: the
invariant holds afterwards, `next_node_id` does not decrease, and all new
edges start at a node that did not exist before the step. -/
def CreStep (pdg pdg' : PDG) : Prop :=
  BuildInv pdg' ∧ pdg.next_node_id ≤ pdg'.next_node_id ∧
  ∃ newE, pdg'.edges = pdg.edges ++ newE ∧
    ∀ e ∈ newE, pdg.next_node_id ≤ e.from_node

/-- The property claimed of every data edge (specification predicate for
the last-writer def-use chains): it carries a variable `v` written by its
source, read by its target, goes strictly forward, and no node strictly
between the two writes `v`. -/
def data_edge_spec (ns : List PDGNode) (e : PDGEdge) : Prop :=
  ∃ v, e.var = some v ∧
    (∃ dn ∈ ns, dn.id = e.from_node ∧ v ∈ dn.variables_written) ∧
    (∃ un ∈ ns, un.id = e.to_node ∧ v ∈ un.variables_read) ∧
    e.from_node < e.to_node ∧
    ∀ m ∈ ns, e.from_node < m.id → m.id < e.to_node →
      v ∉ m.variables_written

/-- Invariant of the pruning loop of `_add_control_dependencies` over an
edge list `E0` produced by node creation, after the nodes `0..m-1` have
been processed: the current edges are a sublist of `E0`; edges into nodes
`≥ m` are untouched; every processed node has at most one control
predecessor left; and for every processed node the edge from its largest
original control predecessor survives. -/
def PruneInv (E0 : List PDGEdge) (m : Nat) (E : List PDGEdge) : Prop :=
  E.Sublist E0 ∧
  (∀ e ∈ E0, m ≤ e.to_node → e ∈ E) ∧
  (∀ j, j < m →
    (get_predecessors E j (some (sl "control"))).length ≤ 1) ∧
  (∀ e ∈ E0, e.to_node < m →
    e.from_node ∈ get_predecessors E0 e.to_node (some (sl "control")) →
    (∀ q ∈ get_predecessors E0 e.to_node (some (sl "control")),
      q ≤ e.from_node) →
    e ∈ E)

-- ==========================================================================
-- Theorems.
-- ==========================================================================

set_option maxRecDepth 1000000

/-- Merging the literal pieces of `IF {c} THEN {a}` when `c` is empty. -/
theorem if_then_empty_merge (a : StrL) :
    sl "IF " ++ (sl " THEN " ++ a) = sl "IF  THEN " ++ a := by
  rw [← List.append_assoc]
  rfl

/-- C5: `classify_variable` maps scope `output` to actuation for every
name; for scope `input` it returns configuration exactly when the
lowercased name matches a configuration pattern and sensing otherwise;
and for scope `var` the sensing patterns are checked first, so a name
ending in `level` (which matches both the sensing pattern `.*level$`
and the configuration pattern `.*level$`) is sensing under scope `var`
but configuration under scope `input`. -/
theorem c5_classify_scope_rules_and_overlap (name : StrL) :
    classify_variable name (sl "output") = VariableType.actuation ∧
    (matches_configuration (name.map Char.toLower) = true →
      classify_variable name (sl "input") = VariableType.configuration) ∧
    (matches_configuration (name.map Char.toLower) = false →
      classify_variable name (sl "input") = VariableType.sensing) ∧
    (isSfx (sl "level") (name.map Char.toLower) = true →
      classify_variable name (sl "var") = VariableType.sensing ∧
      classify_variable name (sl "input") = VariableType.configuration) := by
  refine ⟨?_, ?_, ?_, ?_⟩
  · unfold classify_variable
    rw [if_neg (by decide), if_pos rfl]
  · intro h
    unfold classify_variable
    rw [if_pos rfl, if_pos (by simp [h])]
  · intro h
    unfold classify_variable
    rw [if_pos rfl, if_neg (by simp [h])]
  · intro h
    have hs : matches_sensing (name.map Char.toLower) = true := by
      unfold matches_sensing
      simp [h]
    have hc : matches_configuration (name.map Char.toLower) = true := by
      unfold matches_configuration
      simp [h]
    constructor
    · unfold classify_variable
      rw [if_neg (by decide), if_neg (by decide), if_pos (by simp [hs])]
    · unfold classify_variable
      rw [if_pos rfl, if_pos (by simp [hc])]

/-- Witness for C5 at the concrete name `TankLevel`. -/
theorem c5_witness :
    classify_variable (sl "TankLevel") (sl "var") = VariableType.sensing ∧
    classify_variable (sl "TankLevel") (sl "input") =
      VariableType.configuration ∧
    classify_variable (sl "TankLevel") (sl "output") =
      VariableType.actuation := by
  have h := c5_classify_scope_rules_and_overlap (sl "TankLevel")
  have h4 := h.2.2.2 (by decide)
  exact ⟨h4.1, h4.2, h.1⟩

/-- C2: the source token `<>` is parsed into a node tagged `equals_not`
(first conjunct: the grammar rule for `<>` emits a childless
`equals_not` node and consumes the token), but the expression printer's
operator map only knows the key `not_equal` (second conjunct), so
printing the expression tree of `A <> B` yields `"A B"`: the symbol
`<>` does NOT appear in the output (the claim says it must). -/
theorem c2_not_equal_symbol_dropped :
    (parseLineF 40 ⟨-1⟩ (sl "<> B") (Pat.ref .equals_not) true none).2 =
      POut.ok [Ast.node (sl "equals_not") []] (sl "B") ∧
    format_operator_map (sl "equals_not") = none ∧
    format_expression_ast c2_expr = sl "A B" ∧
    isSub (sl "<>") (format_expression_ast c2_expr) = false := by
  refine ⟨by rfl, by rfl, by rfl, by rfl⟩

/-- C1: on the PDG of
`CASE st OF 10: IF H_Sensor <= 100 THEN H_Actuator := FALSE; END_IF; END_CASE;`
(with `H_Sensor` a sensing input and `H_Actuator` an actuation output),
all of the claim's premises hold — the condition node is the immediate
control predecessor of the actuation assignment, it reads the sensing
variable `H_Sensor`, and its AST contains the comparison (whose operator
node the grammar emits childless, as a sibling of its operands: first
conjunct) — yet `_extract_operator_for_variable` finds no operator and
the extractor emits NO single-variable template at all (the claim says
exactly one is emitted, with operator `<=`): the operator search
requires the variable to occur inside the operator-tagged node, which
never happens on grammar-produced trees. -/
theorem c1_no_single_template_emitted :
    (parseLineF 40 ⟨-1⟩ (sl "<= 100 THEN X") (Pat.ref .less_or_equal) true
        none).2 =
      POut.ok [Ast.node (sl "less_or_equal") []] (sl "100 THEN X") ∧
    c1_sv = some (sl "st") ∧
    get_predecessors c1_pdg.edges 1 (some (sl "control")) = [0] ∧
    (c1_pdg.nodeAt 0).map PDGNode.statement_type = some (sl "condition") ∧
    (c1_pdg.nodeAt 0).map PDGNode.variables_read = some [sl "H_Sensor"] ∧
    (c1_pdg.varAt (sl "H_Sensor")).map Variable.var_type =
      some VariableType.sensing ∧
    (c1_pdg.nodeAt 1).map PDGNode.variables_written =
      some [sl "H_Actuator"] ∧
    ((c1_pdg.nodeAt 0).map fun n =>
      extract_operator_for_variable n (sl "H_Sensor")) = some none ∧
    c1_templates.filter (fun t => t.typeStr = sl "single") = [] ∧
    c1_templates.map Template.typeStr = [sl "multi"] := by
  refine ⟨by rfl, by rfl, by rfl, by rfl, by rfl, by rfl, by rfl, by rfl,
    by rfl, by rfl⟩

/-- C8: the PDG built from a state body with two assignments
`H_Actuator := H_Sensor;` has two distinct assignment nodes writing the
actuation variable `H_Actuator` (not the state variable `st`), each
reading the sensing variable `H_Sensor`, and `extract_all_templates`
emits two multi templates whose ids are both the identical string
`multi_10_H_Actuator`. -/
theorem c8_duplicate_multi_template_ids :
    (two_writer_pdg.nodes.map fun n =>
      (n.id, n.statement_type, n.variables_written, n.variables_read)) =
      [(0, sl "assignment", [sl "H_Actuator"], [sl "H_Actuator", sl "H_Sensor"]),
       (1, sl "assignment", [sl "H_Actuator"], [sl "H_Actuator", sl "H_Sensor"])] ∧
    (two_writer_pdg.varAt (sl "H_Actuator")).map Variable.var_type =
      some VariableType.actuation ∧
    (two_writer_pdg.varAt (sl "H_Sensor")).map Variable.var_type =
      some VariableType.sensing ∧
    (two_writer_templates.filterMap fun t =>
      match t with
      | .multi m => some m.id
      | _ => none) =
      [sl "multi_10_H_Actuator", sl "multi_10_H_Actuator"] := by
  refine ⟨by rfl, by rfl, by rfl, by rfl⟩

/-- C9: an actuation assignment node with no control predecessor whose
backward traversal still reaches a sensing or configuration variable
(i.e. `_extract_multi_variable_invariant` returns a template) gets a
multi template whose `condition` is the empty string and whose
structure is the string `IF  THEN {action}` — an IF with an empty
condition, not suppressed and not marked unconditional. -/
theorem c9_no_predecessor_multi_has_empty_condition
    (pdg : PDG) (act_node_id : Nat) (act_var : StrL) (m : MultiInv)
    (hpred : get_predecessors pdg.edges act_node_id (some (sl "control")) = [])
    (hsome : extract_multi_variable_invariant pdg act_node_id act_var =
      some (Template.multi m)) :
    m.condition = [] ∧ m.structure_text = sl "IF  THEN " ++ m.action := by
  unfold extract_multi_variable_invariant at hsome
  cases hn : pdg.nodeAt act_node_id with
  | none => rw [hn] at hsome; exact absurd hsome (by simp)
  | some act_node =>
    rw [hn, hpred] at hsome
    simp only [] at hsome
    split at hsome
    · exact absurd hsome (by simp)
    · injection hsome with h
      injection h with h
      subst h
      refine ⟨rfl, ?_⟩
      show sl "IF " ++ ([] ++ (sl " THEN " ++ format_assignment_node act_node)) =
        sl "IF  THEN " ++ format_assignment_node act_node
      rw [List.nil_append]
      exact if_then_empty_merge _

/-- Witness for C9: the first assignment node of `two_writer_pdg`. -/
theorem c9_witness :
    ∃ m : MultiInv,
      extract_multi_variable_invariant two_writer_pdg 0 (sl "H_Actuator") =
        some (Template.multi m) ∧
      m.condition = [] ∧ m.structure_text = sl "IF  THEN " ++ m.action := by
  refine ⟨{ id := sl "multi_10_H_Actuator", type := sl "multi",
            state_id := sl "10",
            vars := [sl "H_Sensor", sl "H_Actuator"],
            structure_text := sl "IF  THEN H_Actuator := H_Sensor",
            sensing_vars := [sl "H_Sensor"], configuration_vars := [],
            actuation_var := sl "H_Actuator", condition := [],
            action := sl "H_Actuator := H_Sensor",
            condition_ast := none }, by rfl, ?_, ?_⟩
  · exact (c9_no_predecessor_multi_has_empty_condition two_writer_pdg 0
      (sl "H_Actuator") _ (by rfl) (by rfl)).1
  · exact (c9_no_predecessor_multi_has_empty_condition two_writer_pdg 0
      (sl "H_Actuator") _ (by rfl) (by rfl)).2

/-- One step of the guard walk when the node has no control predecessor. -/
theorem inter_walk_no_preds (fuel : Nat) (pdg : PDG) (cur : Nat)
    (parts cvs : List StrL)
    (h : get_predecessors pdg.edges cur (some (sl "control")) = []) :
    inter_walk (fuel + 1) pdg cur parts cvs = (parts, cvs) := by
  unfold inter_walk
  rw [h]

/-- C6: every inter-state template emitted for a node writing the state
variable carries as `transition_condition` the conjunction (joined by
`" AND "`, outermost condition first) of the parenthesized conditions
collected by walking up the chain of control predecessors
(`guard_string`), which is `"TRUE"` when the node has no control
predecessor; in particular, for the body
`CASE st OF 10: IF A=1 THEN IF B=2 THEN st := 20; END_IF; END_IF; END_CASE;`
the single emitted template is an inter template with
`transition_condition = "(A = 1) AND (B = 2)"`. -/
theorem c6_transition_condition_is_guard_conjunction :
    (∀ (pdg : PDG) (v : StrL) (nid : Nat) (n : PDGNode),
      pdg.nodeAt nid = some n → v ∈ n.variables_written →
      ∀ target, extract_actuation_value n = some target → target ≠ [] →
      Template.inter
        { id := sl "inter_" ++ pdg.state_id ++ sl "_to_" ++ target,
          type := sl "inter", state_id := pdg.state_id,
          vars := v :: guard_cvars pdg n.id,
          structure_text := sl "IF " ++ guard_string pdg n.id ++
            sl " THEN " ++ v ++ sl " := " ++ target,
          source_state := pdg.state_id, dest_state := target,
          transition_condition := guard_string pdg n.id,
          state_variable := v,
          condition_variables := guard_cvars pdg n.id } ∈
        extract_inter_state_invariants pdg v) ∧
    (∀ (pdg : PDG) (nid : Nat),
      get_predecessors pdg.edges nid (some (sl "control")) = [] →
      guard_string pdg nid = sl "TRUE") ∧
    (∃ i : InterInv, c6_templates = [Template.inter i] ∧
      i.transition_condition = sl "(A = 1) AND (B = 2)" ∧
      i.source_state = sl "10" ∧ i.dest_state = sl "20" ∧
      i.state_variable = sl "st" ∧
      i.structure_text = sl "IF (A = 1) AND (B = 2) THEN st := 20") := by
  refine ⟨?_, ?_, ?_⟩
  · intro pdg v nid n hn hw target ht htne
    have hmem : n ∈ pdg.nodes := List.mem_of_find?_eq_some hn
    have hemp : target.isEmpty = false := by
      cases target with
      | nil => exact absurd rfl htne
      | cons c rest => rfl
    unfold extract_inter_state_invariants
    apply List.mem_flatMap.mpr
    refine ⟨n, List.mem_filter.mpr ⟨hmem, by simp [hw]⟩, ?_⟩
    rw [ht]
    simp only [hemp, Bool.false_eq_true, if_false]
    apply List.mem_singleton.mpr
    rfl
  · intro pdg nid h
    unfold guard_string
    rw [show pdg.nodes.length + pdg.edges.length + 2 =
      (pdg.nodes.length + pdg.edges.length + 1) + 1 from rfl]
    rw [inter_walk_no_preds _ _ _ _ _ h]
    rfl
  · exact ⟨{ id := sl "inter_10_to_20", type := sl "inter",
             state_id := sl "10",
             vars := [sl "st", sl "B", sl "A"],
             structure_text := sl "IF (A = 1) AND (B = 2) THEN st := 20",
             source_state := sl "10", dest_state := sl "20",
             transition_condition := sl "(A = 1) AND (B = 2)",
             state_variable := sl "st",
             condition_variables := [sl "B", sl "A"] },
           by rfl, rfl, rfl, rfl, rfl, rfl⟩

/-- Witness for C6 at the state-writing node of `c6_pdg` (and the
`"TRUE"` case at its outermost condition node). -/
theorem c6_witness :
    Template.inter
      { id := sl "inter_10_to_20", type := sl "inter", state_id := sl "10",
        vars := [sl "st", sl "B", sl "A"],
        structure_text := sl "IF (A = 1) AND (B = 2) THEN st := 20",
        source_state := sl "10", dest_state := sl "20",
        transition_condition := sl "(A = 1) AND (B = 2)",
        state_variable := sl "st",
        condition_variables := [sl "B", sl "A"] } ∈
      extract_inter_state_invariants c6_pdg (sl "st") ∧
    guard_string c6_pdg 0 = sl "TRUE" := by
  constructor
  · have h := (c6_transition_condition_is_guard_conjunction).1 c6_pdg
      (sl "st") 2
      { id := 2, statement := sl "st := 20",
        statement_type := sl "assignment",
        variables_read := [sl "st"], variables_written := [sl "st"],
        ast_node := some (.node (sl "assignment_statement")
          [.node (sl "variable_name") [.leaf (sl "st")],
           .node (sl "expression")
             [.node (sl "integer_literal") [.leaf (sl "20")]]]) }
      (by rfl) (by decide) (sl "20") (by rfl) (by decide)
    exact h
  · exact (c6_transition_condition_is_guard_conjunction).2.1 c6_pdg 0 (by rfl)

/-- C7: `parse` returns a tree only when, after the top-level pattern has
matched and whitespace/comments have been skipped, the remaining text is
empty; any remaining unconsumed text (and likewise a parse failure)
yields a `SyntaxError` whose reported line is computed (`computeSynErr`)
from the minimum remaining-text length tracked by the parser state —
the earliest unconsumed position. -/
theorem c7_parse_full_consumption_and_error_line
    (fuel : Nat) (lang : Pat) (content : StrL) (skipWs : Bool)
    (skc : Option Pat) (lp : Pat) (t0 : StrL)
    (hres : resolveTop fuel lang = some lp)
    (hskip : skipF fuel skipWs skc content = some t0) :
    (∀ st ast rest,
      parseLineF fuel ⟨-1⟩ t0 lp skipWs skc = (st, POut.ok ast rest) →
      (rest = [] → parseStringF fuel lang content skipWs skc =
        ParseResult.ok ast) ∧
      (rest ≠ [] → parseStringF fuel lang content skipWs skc =
        ParseResult.err (computeSynErr content st.rest_length))) ∧
    (∀ st, parseLineF fuel ⟨-1⟩ t0 lp skipWs skc = (st, POut.fail) →
      parseStringF fuel lang content skipWs skc =
        ParseResult.err (computeSynErr content st.rest_length)) ∧
    (∀ ast, parseStringF fuel lang content skipWs skc = ParseResult.ok ast →
      ∃ st, parseLineF fuel ⟨-1⟩ t0 lp skipWs skc = (st, POut.ok ast [])) := by
  have key : parseStringF fuel lang content skipWs skc =
      (match parseLineF fuel ⟨-1⟩ t0 lp skipWs skc with
       | (st, POut.ok res rest) =>
         if rest.isEmpty then ParseResult.ok res
         else ParseResult.err (computeSynErr content st.rest_length)
       | (st, POut.fail) =>
         ParseResult.err (computeSynErr content st.rest_length)
       | (_, POut.fatal) => ParseResult.fatal) := by
    unfold parseStringF
    rw [hres, hskip]
  refine ⟨?_, ?_, ?_⟩
  · intro st ast rest hrun
    constructor
    · intro hempty
      rw [key, hrun, hempty]
      rfl
    · intro hne
      rw [key, hrun]
      have : rest.isEmpty = false := by
        cases rest with
        | nil => exact absurd rfl hne
        | cons c cs => rfl
      simp [this]
  · intro st hrun
    rw [key, hrun]
  · intro ast hok
    rw [key] at hok
    rcases hrun : parseLineF fuel ⟨-1⟩ t0 lp skipWs skc with ⟨st, out⟩
    rw [hrun] at hok
    cases out with
    | ok res rest =>
      have hok2 : (if rest.isEmpty then ParseResult.ok res
          else ParseResult.err (computeSynErr content st.rest_length)) =
          ParseResult.ok ast := hok
      cases rest with
      | nil =>
        simp only [List.isEmpty_nil, if_pos] at hok2
        injection hok2 with h
        subst h
        exact ⟨st, rfl⟩
      | cons c cs =>
        rw [if_neg (by simp)] at hok2
        exact absurd hok2 (by simp)
    | fail =>
      have hok2 : ParseResult.err (computeSynErr content st.rest_length) =
          ParseResult.ok ast := hok
      exact absurd hok2 (by simp)
    | fatal =>
      have hok2 : ParseResult.fatal = ParseResult.ok ast := hok
      exact absurd hok2 (by simp)

/-- Witness for C7: the keyword pattern `A` on the two-line input
`"A\nFOO\n"` leaves `FOO` unconsumed; the error points at line 2,
whose text is `FOO`. -/
theorem c7_witness :
    parseStringF 8 (Pat.kw (sl "A")) (sl "A\nFOO\n") true none =
      ParseResult.err ⟨2, some (sl "FOO")⟩ := by
  have h := (c7_parse_full_consumption_and_error_line 8 (Pat.kw (sl "A"))
    (sl "A\nFOO\n") true none (Pat.kw (sl "A")) (sl "A\nFOO")
    (by rfl) (by rfl)).1 ⟨3⟩ [] (sl "FOO") (by rfl)
  have h2 := h.2 (by decide)
  rw [h2]
  rfl

/-- An element of a list that is missing from its filtering fails the
filter predicate. -/
theorem not_mem_filter_false {α : Type} (p : α → Bool) (l : List α) (a : α)
    (h1 : a ∈ l) (h2 : a ∉ l.filter p) : p a = false := by
  by_contra h
  exact h2 (List.mem_filter.mpr ⟨h1, by revert h; cases p a <;> simp⟩)

/-- `prune_step` never adds edges: the result is a sublist. -/
theorem prune_step_sublist (E : List PDGEdge) (m : Nat) :
    (prune_step E m).Sublist E := by
  unfold prune_step
  dsimp only
  split
  · exact List.Sublist.refl _
  · exact List.filter_sublist _

/-- Predecessor lists only shrink along edge sublists. -/
theorem preds_sublist {E E' : List PDGEdge} (h : E'.Sublist E) (n : Nat)
    (ty : Option StrL) :
    (get_predecessors E' n ty).Sublist (get_predecessors E n ty) :=
  List.Sublist.filterMap _ h

/-- An edge whose target keeps at most one control predecessor in the
current edge list survives a pruning step. -/
theorem prune_step_keeps_small (E : List PDGEdge) (m : Nat) (e : PDGEdge)
    (he : e ∈ E)
    (hsmall : (get_predecessors E e.to_node (some (sl "control"))).length ≤ 1) :
    e ∈ prune_step E m := by
  unfold prune_step
  dsimp only
  split
  · exact he
  · next hbig =>
    by_cases hm : e.to_node = m
    · rw [hm] at hsmall
      exact absurd hsmall hbig
    · refine List.mem_filter.mpr ⟨he, ?_⟩
      simp [hm]

/-- A data edge survives a pruning step (the removal condition requires
edge type `control`). -/
theorem prune_step_keeps_data (E : List PDGEdge) (m : Nat) (e : PDGEdge)
    (he : e ∈ E) (hd : e.edge_type = sl "data") :
    e ∈ prune_step E m := by
  unfold prune_step
  dsimp only
  split
  · exact he
  · refine List.mem_filter.mpr ⟨he, ?_⟩
    have : e.edge_type ≠ sl "control" := by
      rw [hd]
      decide
    simp [this]

/-- Characterization of an edge removed by one pruning step, relative to
the current edge list. -/
theorem prune_step_removed (E : List PDGEdge) (m : Nat) (e : PDGEdge)
    (he : e ∈ E) (hout : e ∉ prune_step E m) :
    e.edge_type = sl "control" ∧
    2 ≤ (get_predecessors E e.to_node (some (sl "control"))).length ∧
    ∃ p2 ∈ get_predecessors E e.to_node (some (sl "control")),
      p2 ≠ e.from_node ∧
      ∃ e2 ∈ E, e2.from_node = e.from_node ∧ e2.to_node = p2 ∧
        e2.edge_type = sl "control" := by
  unfold prune_step at hout
  dsimp only at hout
  split at hout
  · exact absurd he hout
  · next hbig =>
    have hfail := not_mem_filter_false _ _ _ he hout
    simp only [decide_eq_false_iff_not, Classical.not_not] at hfail
    obtain ⟨hto, hmem, hctl⟩ := hfail
    obtain ⟨hp1, hany⟩ := List.mem_filter.mp hmem
    obtain ⟨p2, hp2, hcond⟩ := List.any_eq_true.mp hany
    simp only [Bool.and_eq_true, decide_eq_true_eq, ne_eq,
      decide_not, Bool.not_eq_true'] at hcond
    obtain ⟨hne, hedge⟩ := hcond
    obtain ⟨e2, he2, he2cond⟩ := List.any_eq_true.mp hedge
    simp only [Bool.and_eq_true, decide_eq_true_eq] at he2cond
    subst hto
    refine ⟨hctl, by omega, p2, hp2, ?_, e2, he2,
      he2cond.1.1, he2cond.1.2, he2cond.2⟩
    intro hp2eq
    rw [hp2eq] at hne
    simp at hne

/-- Frame invariant of the whole pruning fold, stated against a reference
edge list `E0` that the running list stays inside. -/
theorem prune_fold_frame (E0 : List PDGEdge) :
    ∀ (ids : List Nat) (E : List PDGEdge), E.Sublist E0 →
      (ids.foldl prune_step E).Sublist E ∧
      (∀ e ∈ E, e.edge_type = sl "data" → e ∈ ids.foldl prune_step E) ∧
      (∀ e ∈ E,
        (get_predecessors E0 e.to_node (some (sl "control"))).length ≤ 1 →
        e ∈ ids.foldl prune_step E) ∧
      (∀ e ∈ E, e ∉ ids.foldl prune_step E →
        e.edge_type = sl "control" ∧
        2 ≤ (get_predecessors E0 e.to_node (some (sl "control"))).length ∧
        ∃ p2 ∈ get_predecessors E0 e.to_node (some (sl "control")),
          p2 ≠ e.from_node ∧
          ∃ e2 ∈ E0, e2.from_node = e.from_node ∧ e2.to_node = p2 ∧
            e2.edge_type = sl "control") := by
  intro ids
  induction ids with
  | nil =>
    intro E hE
    refine ⟨List.Sublist.refl _, ?_, ?_, ?_⟩
    · intro e he _
      exact he
    · intro e he _
      exact he
    · intro e he hno
      exact absurd he hno
  | cons m rest ih =>
    intro E hE
    have hstep : (prune_step E m).Sublist E := prune_step_sublist E m
    obtain ⟨ih1, ih2, ih3, ih4⟩ := ih (prune_step E m) (hstep.trans hE)
    simp only [List.foldl_cons]
    refine ⟨ih1.trans hstep, ?_, ?_, ?_⟩
    · intro e he hd
      exact ih2 e (prune_step_keeps_data E m e he hd) hd
    · intro e he hsmall
      have hsmallE : (get_predecessors E e.to_node
          (some (sl "control"))).length ≤ 1 :=
        le_trans (List.Sublist.length_le
          (preds_sublist hE e.to_node (some (sl "control")))) hsmall
      exact ih3 e (prune_step_keeps_small E m e he hsmallE) hsmall
    · intro e he hout
      by_cases hmem : e ∈ prune_step E m
      · exact ih4 e hmem hout
      · obtain ⟨hctl, hlen, p2, hp2, hne, e2, he2, h2f, h2t, h2c⟩ :=
          prune_step_removed E m e he hmem
        have hsub := preds_sublist hE e.to_node (some (sl "control"))
        refine ⟨hctl, le_trans hlen hsub.length_le,
          p2, hsub.subset hp2, hne, e2, hE.subset he2, h2f, h2t, h2c⟩

/-- C10: control-edge pruning only deletes edges. `add_control_dependencies`
leaves the nodes (and everything but the edge list) unchanged; the
resulting edge list is a sublist of the original; no edge of type `data`
is removed; no edge into a node that had at most one control predecessor
before pruning is removed; and every removed edge is a control edge into
a node with two or more control predecessors whose source also has a
direct control edge to another predecessor of that node. -/
theorem c10_pruning_only_deletes_edges (pdg : PDG) :
    (add_control_dependencies pdg).nodes = pdg.nodes ∧
    ((add_control_dependencies pdg).edges).Sublist pdg.edges ∧
    (∀ e ∈ pdg.edges, e.edge_type = sl "data" →
      e ∈ (add_control_dependencies pdg).edges) ∧
    (∀ e ∈ pdg.edges,
      (get_predecessors pdg.edges e.to_node (some (sl "control"))).length ≤ 1 →
      e ∈ (add_control_dependencies pdg).edges) ∧
    (∀ e ∈ pdg.edges, e ∉ (add_control_dependencies pdg).edges →
      e.edge_type = sl "control" ∧
      2 ≤ (get_predecessors pdg.edges e.to_node (some (sl "control"))).length ∧
      ∃ p2 ∈ get_predecessors pdg.edges e.to_node (some (sl "control")),
        p2 ≠ e.from_node ∧
        ∃ e2 ∈ pdg.edges, e2.from_node = e.from_node ∧ e2.to_node = p2 ∧
          e2.edge_type = sl "control") := by
  obtain ⟨h1, h2, h3, h4⟩ :=
    prune_fold_frame pdg.edges (pdg.nodes.map PDGNode.id) pdg.edges
      (List.Sublist.refl _)
  exact ⟨rfl, h1, h2, h3, h4⟩

/-- C10 witness: in `c10_pdg` the transitive edge 0→2 is removed and
carries the removal certificate (predecessor 1 with the witness control
edge 0→1), while the edge 0→1, whose target has one control predecessor,
survives the pruning. -/
theorem c10_witness :
    ((⟨0, 2, sl "control", none, none⟩ : PDGEdge).edge_type = sl "control" ∧
      2 ≤ (get_predecessors c10_pdg.edges 2 (some (sl "control"))).length ∧
      ∃ p2 ∈ get_predecessors c10_pdg.edges 2 (some (sl "control")),
        p2 ≠ 0 ∧
        ∃ e2 ∈ c10_pdg.edges, e2.from_node = 0 ∧ e2.to_node = p2 ∧
          e2.edge_type = sl "control") ∧
    (⟨0, 1, sl "control", none, none⟩ : PDGEdge) ∈
      (add_control_dependencies c10_pdg).edges := by
  obtain ⟨-, -, -, hkeep, hrem⟩ := c10_pruning_only_deletes_edges c10_pdg
  exact ⟨hrem ⟨0, 2, sl "control", none, none⟩ (by decide) (by decide),
    hkeep ⟨0, 1, sl "control", none, none⟩ (by decide) (by decide)⟩

/-- Appending a fresh node preserves the creation invariant. -/
theorem createNode_inv (pdg : PDG) (s t : StrL) (r w : List StrL)
    (a : Option Ast) (h : BuildInv pdg) :
    BuildInv (pdg.createNode s t r w a).1 := by
  obtain ⟨hids, hctl, hasc, hbelow, hchain, hdown, hnd⟩ := h
  have hE : (pdg.createNode s t r w a).1.edges = pdg.edges := rfl
  have hN : (pdg.createNode s t r w a).1.next_node_id =
      pdg.next_node_id + 1 := rfl
  refine ⟨?_, ?_, ?_, ?_, ?_, ?_, ?_⟩
  · show (pdg.nodes ++ [_]).map PDGNode.id = List.range (pdg.next_node_id + 1)
    rw [List.map_append, hids, List.range_succ]
    rfl
  · rw [hE]; exact hctl
  · rw [hE]; exact hasc
  · rw [hE, hN]
    intro e he
    exact Nat.lt_succ_of_lt (hbelow e he)
  · rw [hE]; exact hchain
  · rw [hE]; exact hdown
  · rw [hE]; exact hnd

/-- Adding a cone of control edges from a fresh condition `c` to the block
`[start, next_node_id)` preserves the creation invariant, provided no
existing edge targets `c` and every existing edge into the block comes
from inside the block. -/
theorem add_cone_inv (pdg : PDG) (c start : Nat) (lab : StrL)
    (h : BuildInv pdg)
    (hcs : c < start)
    (h2 : ∀ e ∈ pdg.edges, e.to_node ≠ c)
    (h1 : ∀ e ∈ pdg.edges, start ≤ e.to_node → start ≤ e.from_node) :
    BuildInv (add_cone_edges pdg c start pdg.next_node_id lab) := by
  obtain ⟨hids, hctl, hasc, hbelow, hchain, hdown, hnd⟩ := h
  have hE : (add_cone_edges pdg c start pdg.next_node_id lab).edges =
      pdg.edges ++ (List.range' start (pdg.next_node_id - start)).map
        (fun i => { from_node := c, to_node := i, edge_type := sl "control",
                    var := none, label := some lab }) := rfl
  have hN : (add_cone_edges pdg c start pdg.next_node_id lab).next_node_id =
      pdg.next_node_id := rfl
  have hNo : (add_cone_edges pdg c start pdg.next_node_id lab).nodes =
      pdg.nodes := rfl
  have hA : ∀ e ∈ (List.range' start (pdg.next_node_id - start)).map
      (fun i => ({ from_node := c, to_node := i, edge_type := sl "control",
                   var := none, label := some lab } : PDGEdge)),
      e.from_node = c ∧ start ≤ e.to_node ∧ e.to_node < pdg.next_node_id ∧
        e.edge_type = sl "control" := by
    intro e he
    obtain ⟨i, hi, hei⟩ := List.mem_map.mp he
    obtain ⟨hi1, hi2⟩ := List.mem_range'_1.mp hi
    subst hei
    refine ⟨rfl, hi1, ?_, rfl⟩
    show i < pdg.next_node_id
    omega
  have hAmk : ∀ i, start ≤ i → i < pdg.next_node_id →
      ({ from_node := c, to_node := i, edge_type := sl "control",
         var := none, label := some lab } : PDGEdge) ∈
        (List.range' start (pdg.next_node_id - start)).map
          (fun i => ({ from_node := c, to_node := i,
                       edge_type := sl "control",
                       var := none, label := some lab } : PDGEdge)) := by
    intro i hi1 hi2
    exact List.mem_map.mpr ⟨i, List.mem_range'_1.mpr ⟨hi1, by omega⟩, rfl⟩
  refine ⟨?_, ?_, ?_, ?_, ?_, ?_, ?_⟩
  · rw [hNo, hN]; exact hids
  · rw [hE]
    intro e he
    rcases List.mem_append.mp he with hold | hnew
    · exact hctl e hold
    · exact (hA e hnew).2.2.2
  · rw [hE]
    intro e he
    rcases List.mem_append.mp he with hold | hnew
    · exact hasc e hold
    · obtain ⟨hf, ht, -, -⟩ := hA e hnew
      omega
  · rw [hE, hN]
    intro e he
    rcases List.mem_append.mp he with hold | hnew
    · exact hbelow e hold
    · exact (hA e hnew).2.2.1
  · rw [hE]
    intro e1 he1 e2 he2 htt hff
    rcases List.mem_append.mp he1 with h1o | h1n <;>
      rcases List.mem_append.mp he2 with h2o | h2n
    · obtain ⟨e3, he3, hp⟩ := hchain e1 h1o e2 h2o htt hff
      exact ⟨e3, List.mem_append_left _ he3, hp⟩
    · obtain ⟨hf2, ht2, -, -⟩ := hA e2 h2n
      have : start ≤ e1.to_node := by rw [htt]; exact ht2
      have := h1 e1 h1o this
      omega
    · obtain ⟨hf1, ht1, -, -⟩ := hA e1 h1n
      have hst : start ≤ e2.to_node := by rw [← htt]; exact ht1
      have hfs : start ≤ e2.from_node := h1 e2 h2o hst
      have hfb : e2.from_node < pdg.next_node_id :=
        lt_trans (hasc e2 h2o) (hbelow e2 h2o)
      exact ⟨_, List.mem_append_right _ (hAmk e2.from_node hfs hfb),
        hf1.symm, rfl⟩
    · obtain ⟨hf1, -, -, -⟩ := hA e1 h1n
      obtain ⟨hf2, -, -, -⟩ := hA e2 h2n
      omega
  · rw [hE]
    intro e1 he1 e2 he2 htf
    rcases List.mem_append.mp he1 with h1o | h1n <;>
      rcases List.mem_append.mp he2 with h2o | h2n
    · obtain ⟨e3, he3, hp⟩ := hdown e1 h1o e2 h2o htf
      exact ⟨e3, List.mem_append_left _ he3, hp⟩
    · obtain ⟨hf2, ht2, -, -⟩ := hA e2 h2n
      have hfs : start ≤ e1.from_node := by rw [← htf]; exact ht2
      have hts : start ≤ e1.to_node := le_of_lt (lt_of_le_of_lt hfs (hasc e1 h1o))
      have htb : e1.to_node < pdg.next_node_id := hbelow e1 h1o
      refine ⟨_, List.mem_append_right _
        (hAmk e1.to_node (le_of_lt (lt_of_le_of_lt hfs (hasc e1 h1o))) htb),
        hf2.symm, rfl⟩
    · obtain ⟨hf1, -, -, -⟩ := hA e1 h1n
      exact absurd (htf.trans hf1) (h2 e2 h2o)
    · obtain ⟨hf1, -, -, -⟩ := hA e1 h1n
      obtain ⟨-, ht2, -, -⟩ := hA e2 h2n
      omega
  · rw [hE]
    rw [List.pairwise_append]
    refine ⟨hnd, ?_, ?_⟩
    · refine List.Pairwise.map _ ?_ (List.pairwise_lt_range' start _ 1 ?_)
      · intro i j hij hp
        simp only at hp
        omega
      · exact Nat.le_refl 1
    · intro a ha b hb hp
      obtain ⟨hfb, htb, -, -⟩ := hA b hb
      obtain ⟨hpf, hpt⟩ := hp
      have : start ≤ a.to_node := by rw [hpt]; exact htb
      have := h1 a ha this
      omega

/-- Unfolding of one statement step of `create_nodes_from_statements`. -/
theorem create_nodes_succ (fuel : Nat) (pdg : PDG) (s : Ast)
    (rest : List Ast) :
    create_nodes_from_statements (fuel + 1) pdg (s :: rest) =
    create_nodes_from_statements fuel
      (if is_node_type s (sl "assignment_statement") then
        create_assignment_node pdg s
       else if is_node_type s (sl "if_statement") then
        create_if_statement_nodes fuel pdg s
       else pdg) rest := rfl

/-- Unfolding of `create_if_statement_nodes`, with the destructured
`createNode` pair written as projections. -/
theorem create_if_succ (fuel : Nat) (pdg : PDG) (a : Ast) :
    create_if_statement_nodes (fuel + 1) pdg a =
    (let pdg1 := (pdg.createNode (sl "IF " ++ format_condition a)
        (sl "condition") (extract_condition_variables a) [] (some a)).1
     let pdg2 := create_nodes_from_statements fuel pdg1
        (extract_then_statements a)
     let pdg3 := add_cone_edges pdg2 pdg.next_node_id pdg1.next_node_id
        pdg2.next_node_id (sl "then")
     let pdg4 := process_elsif_blocks fuel pdg3 (extract_elsif_blocks a)
     if (extract_else_statements a).isEmpty then pdg4
     else
       let pdg5 := create_nodes_from_statements fuel pdg4
          (extract_else_statements a)
       add_cone_edges pdg5 pdg.next_node_id pdg4.next_node_id
          pdg5.next_node_id (sl "else")) := rfl

/-- Unfolding of one block step of `process_elsif_blocks`. -/
theorem process_elsif_succ (fuel : Nat) (pdg : PDG) (ca : Ast)
    (ss : List Ast) (rest : List (Ast × List Ast)) :
    process_elsif_blocks (fuel + 1) pdg ((ca, ss) :: rest) =
    (let pdg1 := (pdg.createNode (sl "ELSIF " ++ format_expression_ast ca)
        (sl "condition") (extract_condition_variables ca) [] (some ca)).1
     let pdg2 := create_nodes_from_statements fuel pdg1 ss
     let pdg3 := add_cone_edges pdg2 pdg.next_node_id pdg1.next_node_id
        pdg2.next_node_id (sl "elsif")
     process_elsif_blocks fuel pdg3 rest) := rfl

/-- A trivial creation step. -/
theorem creStep_rfl {pdg : PDG} (h : BuildInv pdg) : CreStep pdg pdg :=
  ⟨h, Nat.le_refl _, [], (List.append_nil _).symm, by intro e he; cases he⟩

/-- Creation steps compose. -/
theorem creStep_trans {p q r : PDG} (h1 : CreStep p q) (h2 : CreStep q r) :
    CreStep p r := by
  obtain ⟨hi1, hn1, n1, he1, hf1⟩ := h1
  obtain ⟨hi2, hn2, n2, he2, hf2⟩ := h2
  refine ⟨hi2, le_trans hn1 hn2, n1 ++ n2, ?_, ?_⟩
  · rw [he2, he1, List.append_assoc]
  · intro e he
    rcases List.mem_append.mp he with h | h
    · exact hf1 e h
    · exact le_trans hn1 (hf2 e h)

/-- Creating one node is a creation step. -/
theorem createNode_creStep (pdg : PDG) (s t : StrL) (r w : List StrL)
    (a : Option Ast) (h : BuildInv pdg) :
    CreStep pdg (pdg.createNode s t r w a).1 :=
  ⟨createNode_inv pdg s t r w a h, Nat.le_succ _, [],
    (List.append_nil _).symm, by intro e he; cases he⟩

/-- The cone pattern of the IF/ELSIF/ELSE builders: a block is created
(strictly raising `next_node_id` past the condition id `pdg0.next_node_id`),
then further nodes, then the cone of control edges from the condition to
the trailing block `[pdg4.next_node_id, pdg5.next_node_id)` is added. -/
theorem cone_pattern (pdg0 pdg4 pdg5 : PDG) (lab : StrL)
    (h0 : BuildInv pdg0)
    (h04 : CreStep pdg0 pdg4)
    (hnext : pdg0.next_node_id < pdg4.next_node_id)
    (h45 : CreStep pdg4 pdg5) :
    CreStep pdg0 (add_cone_edges pdg5 pdg0.next_node_id pdg4.next_node_id
      pdg5.next_node_id lab) := by
  have h05 : CreStep pdg0 pdg5 := creStep_trans h04 h45
  have hi4 : BuildInv pdg4 := h04.1
  obtain ⟨hi5, hn45, n45, he45, hf45⟩ := h45
  obtain ⟨-, hn05, n05, he05, hf05⟩ := h05
  have h2 : ∀ e ∈ pdg5.edges, e.to_node ≠ pdg0.next_node_id := by
    intro e he
    rw [he05] at he
    rcases List.mem_append.mp he with hold | hnew
    · exact Nat.ne_of_lt (h0.below e hold)
    · have hf := hf05 e hnew
      have ha := hi5.asc e (by rw [he05]; exact List.mem_append_right _ hnew)
      omega
  have h1 : ∀ e ∈ pdg5.edges, pdg4.next_node_id ≤ e.to_node →
      pdg4.next_node_id ≤ e.from_node := by
    intro e he hto
    rw [he45] at he
    rcases List.mem_append.mp he with hold | hnew
    · exact absurd hto (Nat.not_le_of_lt (hi4.below e hold))
    · exact hf45 e hnew
  have hinv := add_cone_inv pdg5 pdg0.next_node_id pdg4.next_node_id lab hi5
    (lt_of_lt_of_le hnext (Nat.le_refl _)) h2 h1
  refine ⟨hinv, ?_, ?_⟩
  · show pdg0.next_node_id ≤ pdg5.next_node_id
    exact hn05
  · refine ⟨n05 ++ (List.range' pdg4.next_node_id
      (pdg5.next_node_id - pdg4.next_node_id)).map
        (fun i => { from_node := pdg0.next_node_id, to_node := i,
                    edge_type := sl "control", var := none,
                    label := some lab }), ?_, ?_⟩
    · show pdg5.edges ++ _ = _
      rw [he05, List.append_assoc]
    · intro e he
      rcases List.mem_append.mp he with h | h
      · exact hf05 e h
      · obtain ⟨i, -, hei⟩ := List.mem_map.mp h
        subst hei
        exact Nat.le_refl _

/-- An assignment node is a creation step. -/
theorem create_assignment_creStep (pdg : PDG) (s : Ast)
    (h : BuildInv pdg) : CreStep pdg (create_assignment_node pdg s) :=
  createNode_creStep pdg _ _ _ _ _ h

/-- The node-creation phase preserves the creation invariant and only
appends nodes and forward cone edges, for all three mutually recursive
builders at every fuel. -/
theorem creation_spec (fuel : Nat) :
    (∀ pdg stmts, BuildInv pdg →
      CreStep pdg (create_nodes_from_statements fuel pdg stmts)) ∧
    (∀ pdg a, BuildInv pdg →
      CreStep pdg (create_if_statement_nodes fuel pdg a)) ∧
    (∀ pdg bs, BuildInv pdg →
      CreStep pdg (process_elsif_blocks fuel pdg bs)) := by
  induction fuel with
  | zero =>
    refine ⟨fun pdg stmts h => ?_, fun pdg a h => ?_, fun pdg bs h => ?_⟩
    · exact creStep_rfl h
    · exact creStep_rfl h
    · exact creStep_rfl h
  | succ fuel ih =>
    obtain ⟨ihS, ihI, ihE⟩ := ih
    refine ⟨fun pdg stmts h => ?_, fun pdg a h => ?_, fun pdg bs h => ?_⟩
    · cases stmts with
      | nil => exact creStep_rfl h
      | cons s rest =>
        rw [create_nodes_succ]
        have hmid : CreStep pdg
            (if is_node_type s (sl "assignment_statement") then
              create_assignment_node pdg s
             else if is_node_type s (sl "if_statement") then
              create_if_statement_nodes fuel pdg s
             else pdg) := by
          split
          · exact create_assignment_creStep pdg s h
          · split
            · exact ihI pdg s h
            · exact creStep_rfl h
        exact creStep_trans hmid (ihS _ rest hmid.1)
    · rw [create_if_succ]
      dsimp only
      set p1 := (pdg.createNode (sl "IF " ++ format_condition a)
        (sl "condition") (extract_condition_variables a) [] (some a)).1
        with hp1
      set p2 := create_nodes_from_statements fuel p1
        (extract_then_statements a) with hp2
      set p3 := add_cone_edges p2 pdg.next_node_id p1.next_node_id
        p2.next_node_id (sl "then") with hp3
      set p4 := process_elsif_blocks fuel p3 (extract_elsif_blocks a)
        with hp4
      set p5 := create_nodes_from_statements fuel p4
        (extract_else_statements a) with hp5
      have hn1 : p1.next_node_id = pdg.next_node_id + 1 := by
        rw [hp1]
        rfl
      have s1 : CreStep pdg p1 := by
        rw [hp1]
        exact createNode_creStep pdg _ _ _ _ _ h
      have s2 : CreStep p1 p2 := by
        rw [hp2]
        exact ihS p1 _ s1.1
      have s3 : CreStep pdg p3 := by
        rw [hp3]
        exact cone_pattern pdg p1 p2 (sl "then") h s1 (by omega) s2
      have s4 : CreStep p3 p4 := by
        rw [hp4]
        exact ihE p3 _ s3.1
      have s04 : CreStep pdg p4 := creStep_trans s3 s4
      have hn3 : p3.next_node_id = p2.next_node_id := by
        rw [hp3]; rfl
      have hn4 : pdg.next_node_id < p4.next_node_id := by
        have := s2.2.1
        have := s4.2.1
        omega
      split
      · exact s04
      · have s5 : CreStep p4 p5 := by
          rw [hp5]
          exact ihS p4 _ s04.1
        exact cone_pattern pdg p4 p5 (sl "else") h s04 hn4 s5
    · cases bs with
      | nil => exact creStep_rfl h
      | cons b rest =>
        obtain ⟨ca, ss⟩ := b
        rw [process_elsif_succ]
        dsimp only
        set p1 := (pdg.createNode (sl "ELSIF " ++ format_expression_ast ca)
          (sl "condition") (extract_condition_variables ca) [] (some ca)).1
          with hp1
        set p2 := create_nodes_from_statements fuel p1 ss with hp2
        have hn1 : p1.next_node_id = pdg.next_node_id + 1 := by
          rw [hp1]
          rfl
        have s1 : CreStep pdg p1 := by
          rw [hp1]
          exact createNode_creStep pdg _ _ _ _ _ h
        have s2 : CreStep p1 p2 := by
          rw [hp2]
          exact ihS p1 _ s1.1
        have s3 : CreStep pdg (add_cone_edges p2 pdg.next_node_id
            p1.next_node_id p2.next_node_id (sl "elsif")) :=
          cone_pattern pdg p1 p2 (sl "elsif") h s1 (by omega) s2
        exact creStep_trans s3 (ihE _ rest s3.1)

/-- Inserting below all elements is a cons. -/
theorem insertById_of_le (n : PDGNode) (l : List PDGNode)
    (h : ∀ m ∈ l, n.id ≤ m.id) :
    sort_nodes_by_id.insertById n l = n :: l := by
  cases l with
  | nil => rfl
  | cons m rest =>
    unfold sort_nodes_by_id.insertById
    rw [if_pos (h m (List.mem_cons_self m rest))]

/-- Sorting a list already sorted by id is the identity (the source sorts
the node dict keys, which the builder produces in ascending order). -/
theorem sort_nodes_sorted (l : List PDGNode)
    (h : List.Pairwise (fun a b => a.id ≤ b.id) l) :
    sort_nodes_by_id l = l := by
  induction l with
  | nil => rfl
  | cons n rest ih =>
    obtain ⟨h1, h2⟩ := List.pairwise_cons.mp h
    rw [sort_nodes_by_id, ih h2, insertById_of_le n rest h1]

/-- Splitting the positional node-id characterization over an append. -/
theorem ids_split (done todo : List PDGNode)
    (h : (done ++ todo).map PDGNode.id =
      List.range (done.length + todo.length)) :
    done.map PDGNode.id = List.range done.length ∧
    todo.map PDGNode.id =
      (List.range todo.length).map (done.length + ·) := by
  rw [List.map_append, List.range_add] at h
  exact List.append_inj h (by simp)

/-- Membership after the `last_def` dict update of one node: an entry
either survived (its key is not written here) or was just written. -/
theorem last_def_update_mem (i : Nat) :
    ∀ (ws : List StrL) (ld : List (StrL × Nat)) (p : StrL × Nat),
      p ∈ ws.foldl
        (fun m v => (m.filter fun q => q.1 ≠ v) ++ [(v, i)]) ld →
      (p ∈ ld ∧ p.1 ∉ ws) ∨ (p.2 = i ∧ p.1 ∈ ws) := by
  intro ws
  induction ws with
  | nil =>
    intro ld p hp
    exact Or.inl ⟨hp, by simp⟩
  | cons w ws ih =>
    intro ld p hp
    rw [List.foldl_cons] at hp
    rcases ih _ p hp with ⟨hmem, hnot⟩ | ⟨hpi, hin⟩
    · rcases List.mem_append.mp hmem with hf | hw
      · obtain ⟨hld, hne⟩ := List.mem_filter.mp hf
        simp only [ne_eq, decide_not, Bool.not_eq_true',
          decide_eq_false_iff_not] at hne
        exact Or.inl ⟨hld, by simp [hne, hnot]⟩
      · simp only [List.mem_singleton] at hw
        subst hw
        exact Or.inr ⟨rfl, by simp⟩
    · exact Or.inr ⟨hpi, List.mem_cons_of_mem _ hin⟩

/-- Unfolding of `_add_data_dependencies` as an explicit fold. -/
theorem add_data_eq (pdg : PDG) :
    add_data_dependencies pdg =
    { pdg with edges := ((sort_nodes_by_id pdg.nodes).foldl
        (fun (acc : List PDGEdge × List (StrL × Nat)) (n : PDGNode) =>
          let (edges, last_def) := acc
          let edges := edges ++ n.variables_read.filterMap fun v =>
            match last_def.find? (fun p => p.1 = v) with
            | some (_, d) =>
              some { from_node := d, to_node := n.id,
                     edge_type := sl "data", var := some v,
                     label := some (sl "def-use: " ++ v) }
            | none => none
          let last_def := n.variables_written.foldl
            (fun m v => (m.filter fun p => p.1 ≠ v) ++ [(v, n.id)]) last_def
          (edges, last_def)) (pdg.edges, [])).1 } := rfl

/-- Invariant of the def-use fold of `_add_data_dependencies` over a node
list whose ids are its positions: the fold only appends data edges, and
each appended edge points from the last writer of its variable to the
reading node. -/
theorem data_fold_spec (ns : List PDGNode)
    (hids : ns.map PDGNode.id = List.range ns.length) :
    ∀ (todo done : List PDGNode) (edges : List PDGEdge)
      (ld : List (StrL × Nat)),
      done ++ todo = ns →
      (∀ p ∈ ld, p.2 < done.length ∧
        (∃ dn ∈ done, dn.id = p.2 ∧ p.1 ∈ dn.variables_written) ∧
        (∀ m ∈ done, p.2 < m.id → p.1 ∉ m.variables_written)) →
      ∃ extra,
        (todo.foldl
          (fun (acc : List PDGEdge × List (StrL × Nat)) (n : PDGNode) =>
            let (edges, last_def) := acc
            let edges := edges ++ n.variables_read.filterMap fun v =>
              match last_def.find? (fun p => p.1 = v) with
              | some (_, d) =>
                some { from_node := d, to_node := n.id,
                       edge_type := sl "data", var := some v,
                       label := some (sl "def-use: " ++ v) }
              | none => none
            let last_def := n.variables_written.foldl
              (fun m v => (m.filter fun p => p.1 ≠ v) ++ [(v, n.id)])
              last_def
            (edges, last_def)) (edges, ld)).1 = edges ++ extra ∧
        ∀ e ∈ extra, e.edge_type = sl "data" ∧ data_edge_spec ns e := by
  intro todo
  induction todo with
  | nil =>
    intro done edges ld hdone hB
    exact ⟨[], (List.append_nil _).symm, by intro e he; cases he⟩
  | cons n todo ih =>
    intro done edges ld hdone hB
    have hlen : ns.length = done.length + (n :: todo).length := by
      rw [← hdone, List.length_append]
    obtain ⟨hdl, htl⟩ := ids_split done (n :: todo) (by rw [hdone, hids, hlen])
    have hk : (n :: todo).length = todo.length + 1 := rfl
    rw [hk, List.range_succ_eq_map, List.map_cons, List.map_cons] at htl
    injection htl with h1 h2
    have hnid : n.id = done.length := by omega
    have hdone_lt : ∀ m ∈ done, m.id < done.length := by
      intro m hm
      have : m.id ∈ done.map PDGNode.id := List.mem_map_of_mem _ hm
      rw [hdl] at this
      exact List.mem_range.mp this
    have htodo_gt : ∀ m ∈ todo, done.length < m.id := by
      intro m hm
      have hmm : m.id ∈ todo.map PDGNode.id := List.mem_map_of_mem _ hm
      rw [h2] at hmm
      obtain ⟨x, hx, hxe⟩ := List.mem_map.mp hmm
      obtain ⟨j, hj, hje⟩ := List.mem_map.mp hx
      omega
    rw [List.foldl_cons]
    have hmid : ∀ m ∈ ns, m.id < done.length → m ∈ done := by
      intro m hm hmlt
      rw [← hdone] at hm
      rcases List.mem_append.mp hm with h | h
      · exact h
      · rcases List.mem_cons.mp h with h | h
        · subst h; omega
        · exact absurd hmlt (by have := htodo_gt m h; omega)
    have hnewspec : ∀ e ∈ n.variables_read.filterMap fun v =>
        (match ld.find? (fun p => p.1 = v) with
          | some (_, d) =>
            some ({ from_node := d, to_node := n.id,
                    edge_type := sl "data", var := some v,
                    label := some (sl "def-use: " ++ v) } : PDGEdge)
          | none => none),
        e.edge_type = sl "data" ∧ data_edge_spec ns e := by
      intro e he
      obtain ⟨v, hv, hfe⟩ := List.mem_filterMap.mp he
      cases hfind : ld.find? (fun p => p.1 = v) with
      | none => rw [hfind] at hfe; cases hfe
      | some q =>
        rw [hfind] at hfe
        obtain ⟨q1, d⟩ := q
        simp only [Option.some.injEq] at hfe
        subst hfe
        have hq1 : q1 = v := by
          have := List.find?_some hfind
          simpa using this
        have hqmem : (q1, d) ∈ ld := List.mem_of_find?_eq_some hfind
        obtain ⟨hdlt, ⟨dn, hdn, hdnid, hdnw⟩, hlast⟩ := hB (q1, d) hqmem
        refine ⟨rfl, v, rfl, ⟨dn, ?_, hdnid, by rw [← hq1]; exact hdnw⟩,
          ⟨n, ?_, hnid.symm ▸ rfl, hv⟩, ?_, ?_⟩
        · rw [← hdone]; exact List.mem_append_left _ hdn
        · rw [← hdone]
          exact List.mem_append_right _ (List.mem_cons_self _ _)
        · show d < n.id
          omega
        · intro m hm h1 h2
          have hmd : m ∈ done := hmid m hm (by
            have : m.id < n.id := h2
            omega)
          have := hlast m hmd h1
          rw [hq1] at this
          exact this
    have hBn : ∀ p ∈ n.variables_written.foldl
        (fun m v => (m.filter fun p => p.1 ≠ v) ++ [(v, n.id)]) ld,
        p.2 < (done ++ [n]).length ∧
        (∃ dn ∈ done ++ [n], dn.id = p.2 ∧ p.1 ∈ dn.variables_written) ∧
        (∀ m ∈ done ++ [n], p.2 < m.id → p.1 ∉ m.variables_written) := by
      intro p hp
      rcases last_def_update_mem n.id _ ld p hp with ⟨hold, hnw⟩ | ⟨hpi, hin⟩
      · obtain ⟨hlt, ⟨dn, hdn, hdnid, hdnw⟩, hlast⟩ := hB p hold
        refine ⟨by simp; omega, ⟨dn, List.mem_append_left _ hdn, hdnid, hdnw⟩,
          ?_⟩
        intro m hm hmlt
        rcases List.mem_append.mp hm with h | h
        · exact hlast m h hmlt
        · rw [List.mem_singleton.mp h]
          exact hnw
      · refine ⟨by simp [hpi, hnid], ⟨n, List.mem_append_right _
          (List.mem_singleton.mpr rfl), hpi.symm, hin⟩, ?_⟩
        intro m hm hmlt
        rcases List.mem_append.mp hm with h | h
        · have := hdone_lt m h
          omega
        · rw [List.mem_singleton.mp h] at hmlt ⊢
          omega
    obtain ⟨extra, hex, hexspec⟩ := ih (done ++ [n])
      (edges ++ n.variables_read.filterMap fun v =>
        match ld.find? (fun p => p.1 = v) with
        | some (_, d) =>
          some { from_node := d, to_node := n.id,
                 edge_type := sl "data", var := some v,
                 label := some (sl "def-use: " ++ v) }
        | none => none)
      (n.variables_written.foldl
        (fun m v => (m.filter fun p => p.1 ≠ v) ++ [(v, n.id)]) ld)
      (by rw [List.append_assoc]; exact hdone) hBn
    dsimp only
    refine ⟨(n.variables_read.filterMap fun v =>
        match ld.find? (fun p => p.1 = v) with
        | some (_, d) =>
          some { from_node := d, to_node := n.id,
                 edge_type := sl "data", var := some v,
                 label := some (sl "def-use: " ++ v) }
        | none => none) ++ extra, ?_, ?_⟩
    · rw [← List.append_assoc]
      exact hex
    · intro e he
      rcases List.mem_append.mp he with h | h
      · exact hnewspec e h
      · exact hexspec e h

/-- Edge-level unfolding of `_add_data_dependencies`. -/
theorem add_data_edges_eq (pdg : PDG) :
    (add_data_dependencies pdg).edges =
    ((sort_nodes_by_id pdg.nodes).foldl
      (fun (acc : List PDGEdge × List (StrL × Nat)) (n : PDGNode) =>
        let (edges, last_def) := acc
        let edges := edges ++ n.variables_read.filterMap fun v =>
          match last_def.find? (fun p => p.1 = v) with
          | some (_, d) =>
            some { from_node := d, to_node := n.id,
                   edge_type := sl "data", var := some v,
                   label := some (sl "def-use: " ++ v) }
          | none => none
        let last_def := n.variables_written.foldl
          (fun m v => (m.filter fun p => p.1 ≠ v) ++ [(v, n.id)]) last_def
        (edges, last_def)) (pdg.edges, [])).1 := rfl

/-- `_add_data_dependencies` leaves the nodes unchanged. -/
theorem add_data_nodes_eq (pdg : PDG) :
    (add_data_dependencies pdg).nodes = pdg.nodes := rfl

/-- Unfolding of `build_pdg_for_state` into its three phases. -/
theorem build_pdg_eq (vt : List (StrL × Variable)) (sid : StrL)
    (elem : Ast) :
    build_pdg_for_state vt sid elem =
    (if (extract_statement_list elem).isEmpty then
      ({ state_id := sid, nodes := [], edges := [], vartable := vt,
         next_node_id := 0 } : PDG)
     else
      add_data_dependencies (add_control_dependencies
        (create_nodes_from_statements (astSize elem + 1)
          { state_id := sid, nodes := [], edges := [], vartable := vt,
            next_node_id := 0 }
          (extract_statement_list elem)))) := rfl

/-- The empty PDG satisfies the creation invariant. -/
theorem initial_buildInv (vt : List (StrL × Variable)) (sid : StrL) :
    BuildInv { state_id := sid, nodes := [], edges := [], vartable := vt,
               next_node_id := 0 } := by
  refine ⟨rfl, ?_, ?_, ?_, ?_, ?_, ?_⟩
  · intro e he; cases he
  · intro e he; cases he
  · intro e he; cases he
  · intro e1 he1; cases he1
  · intro e1 he1; cases he1
  · exact List.Pairwise.nil

/-- C4: every data edge of a PDG produced by `build_pdg_for_state` points
from the last writer of its variable to a node that reads it: the variable
is written by the source, read by the target, the edge goes strictly
forward in node-id order, and no node strictly between the two writes the
variable. -/
theorem c4_data_edges_are_last_writer_def_use
    (vt : List (StrL × Variable)) (sid : StrL) (elem : Ast) :
    ∀ e ∈ (build_pdg_for_state vt sid elem).edges,
      e.edge_type = sl "data" →
      data_edge_spec (build_pdg_for_state vt sid elem).nodes e := by
  rw [build_pdg_eq]
  split
  · intro e he
    cases he
  · intro e he hdata
    set P0 : PDG := ({ state_id := sid, nodes := [], edges := [], vartable := vt, next_node_id := 0 } : PDG) with hP0
    set P1 := create_nodes_from_statements (astSize elem + 1) P0
      (extract_statement_list elem) with hP1
    set P2 := add_control_dependencies P1 with hP2
    have h0 : BuildInv P0 := initial_buildInv vt sid
    have s1 : CreStep P0 P1 := by
      rw [hP1]
      exact (creation_spec (astSize elem + 1)).1 P0
        (extract_statement_list elem) h0
    have hi1 : BuildInv P1 := s1.1
    have hsub : P2.edges.Sublist P1.edges :=
      (prune_fold_frame P1.edges (P1.nodes.map PDGNode.id) P1.edges
        (List.Sublist.refl _)).1
    have hctl2 : ∀ e2 ∈ P2.edges, e2.edge_type = sl "control" :=
      fun e2 he2 => hi1.ctl e2 (hsub.subset he2)
    have hids2 : P2.nodes.map PDGNode.id = List.range P2.next_node_id :=
      hi1.ids
    have hlen : P2.next_node_id = P2.nodes.length := by
      have := congrArg List.length hids2
      simp only [List.length_map, List.length_range] at this
      omega
    have hids2a : P2.nodes.map PDGNode.id = List.range P2.nodes.length := by
      rw [← hlen]
      exact hids2
    have hsort : sort_nodes_by_id P2.nodes = P2.nodes := by
      apply sort_nodes_sorted
      have hpl : (P2.nodes.map PDGNode.id).Pairwise (· ≤ ·) := by
        rw [hids2a]
        exact (List.pairwise_lt_range _).imp le_of_lt
      exact List.pairwise_map.mp hpl
    obtain ⟨extra, hex, hspec⟩ := data_fold_spec P2.nodes hids2a P2.nodes []
      P2.edges [] rfl (by intro p hp; cases hp)
    rw [add_data_edges_eq, hsort, hex] at he
    rcases List.mem_append.mp he with hP | hX
    · have := hctl2 e hP
      rw [hdata] at this
      exact absurd this (by decide)
    · rw [add_data_nodes_eq]
      exact (hspec e hX).2

/-- C4 witness: in the two-assignment PDG the data edge `0 → 1` carries
`H_Actuator`, written by node 0, read by node 1, with no writer between. -/
theorem c4_witness :
    (⟨0, 1, sl "data", some (sl "H_Actuator"),
        some (sl "def-use: H_Actuator")⟩ : PDGEdge) ∈
      two_writer_pdg.edges ∧
    data_edge_spec two_writer_pdg.nodes
      ⟨0, 1, sl "data", some (sl "H_Actuator"),
        some (sl "def-use: H_Actuator")⟩ := by
  refine ⟨by decide, ?_⟩
  exact c4_data_edges_are_last_writer_def_use c1_vartable (sl "10")
    two_writer_elem _ (by decide) rfl

/-- Membership in a predecessor list, unfolded. -/
theorem mem_get_predecessors {E : List PDGEdge} {n : Nat} {ty : Option StrL}
    {p : Nat} :
    p ∈ get_predecessors E n ty ↔
    ∃ e ∈ E, e.to_node = n ∧ (ty = none ∨ ty = some e.edge_type) ∧
      e.from_node = p := by
  unfold get_predecessors
  rw [List.mem_filterMap]
  constructor
  · rintro ⟨e, he, hfe⟩
    by_cases hc : e.to_node = n ∧ (ty = none ∨ ty = some e.edge_type)
    · rw [if_pos hc] at hfe
      exact ⟨e, he, hc.1, hc.2, Option.some.injEq _ _ ▸ hfe⟩
    · rw [if_neg hc] at hfe
      cases hfe
  · rintro ⟨e, he, h1, h2, h3⟩
    refine ⟨e, he, ?_⟩
    rw [if_pos ⟨h1, h2⟩, h3]

/-- A filterMap is unchanged when restricting to a sublist that keeps
every selected element, provided the list never repeats an element on
which the irreflexive relation `R` holds pairwise. -/
theorem sublist_filterMap_of_keep {α β : Type} (f : α → Option β)
    (R : α → α → Prop) (hirr : ∀ a, ¬ R a a) :
    ∀ {l1 l2 : List α}, l1.Sublist l2 → List.Pairwise R l2 →
      (∀ a ∈ l2, f a ≠ none → a ∈ l1) →
      l1.filterMap f = l2.filterMap f := by
  intro l1 l2 h
  induction h with
  | slnil =>
    intro _ _
    rfl
  | cons a h ih =>
    intro hp hkeep
    next l1 l2 =>
    have hfa : f a = none := by
      by_contra hfa
      have hmem : a ∈ l1 := hkeep a (List.mem_cons_self a l2) hfa
      have : a ∈ l2 := h.subset hmem
      exact hirr a ((List.pairwise_cons.mp hp).1 a this)
    rw [List.filterMap_cons, hfa]
    exact ih (List.pairwise_cons.mp hp).2
      (fun b hb hfb => hkeep b (List.mem_cons_of_mem a hb) hfb)
  | cons₂ a h ih =>
    intro hp hkeep
    next l1 l2 =>
    rw [List.filterMap_cons, List.filterMap_cons]
    have htl : l1.filterMap f = l2.filterMap f := by
      refine ih (List.pairwise_cons.mp hp).2 ?_
      intro b hb hfb
      rcases List.mem_cons.mp
          (hkeep b (List.mem_cons_of_mem a hb) hfb) with hba | hbl
      · exact absurd ((List.pairwise_cons.mp hp).1 b hb) (hba ▸ hirr b)
      · exact hbl
    cases f a <;> rw [htl]

/-- A nonempty set of naturals above a bound has a least element above
that bound. -/
theorem exists_min_above :
    ∀ (l : List Nat) (x : Nat), (∃ b ∈ l, x < b) →
      ∃ q ∈ l, x < q ∧ ∀ r ∈ l, x < r → q ≤ r := by
  intro l
  induction l with
  | nil =>
    intro x h
    obtain ⟨b, hb, -⟩ := h
    cases hb
  | cons a l ih =>
    intro x h
    by_cases hl : ∃ b ∈ l, x < b
    · obtain ⟨q, hq, hxq, hmin⟩ := ih x hl
      by_cases hax : x < a
      · by_cases haq : a ≤ q
        · refine ⟨a, List.mem_cons_self a l, hax, ?_⟩
          intro r hr hxr
          rcases List.mem_cons.mp hr with hra | hrl
          · omega
          · exact le_trans haq (hmin r hrl hxr)
        · refine ⟨q, List.mem_cons_of_mem a hq, hxq, ?_⟩
          intro r hr hxr
          rcases List.mem_cons.mp hr with hra | hrl
          · omega
          · exact hmin r hrl hxr
      · refine ⟨q, List.mem_cons_of_mem a hq, hxq, ?_⟩
        intro r hr hxr
        rcases List.mem_cons.mp hr with hra | hrl
        · omega
        · exact hmin r hrl hxr
    · obtain ⟨b, hb, hxb⟩ := h
      rcases List.mem_cons.mp hb with hba | hbl
      · refine ⟨a, List.mem_cons_self a l, hba ▸ hxb, ?_⟩
        intro r hr hxr
        rcases List.mem_cons.mp hr with hra | hrl
        · omega
        · exact absurd ⟨r, hrl, hxr⟩ hl
      · exact absurd ⟨b, hbl, hxb⟩ hl

/-- A nonempty list of naturals has a greatest element. -/
theorem exists_max_nat :
    ∀ (l : List Nat), l ≠ [] → ∃ q ∈ l, ∀ r ∈ l, r ≤ q := by
  intro l
  induction l with
  | nil => intro h; exact absurd rfl h
  | cons a l ih =>
    intro _
    cases l with
    | nil =>
      refine ⟨a, List.mem_cons_self a [], ?_⟩
      intro r hr
      rcases List.mem_cons.mp hr with hra | hrl
      · omega
      · cases hrl
    | cons b l2 =>
      obtain ⟨q, hq, hmax⟩ := ih (by simp)
      by_cases haq : a ≤ q
      · refine ⟨q, List.mem_cons_of_mem a hq, ?_⟩
        intro r hr
        rcases List.mem_cons.mp hr with hra | hrl
        · omega
        · exact hmax r hrl
      · refine ⟨a, List.mem_cons_self a _, ?_⟩
        intro r hr
        rcases List.mem_cons.mp hr with hra | hrl
        · omega
        · exact le_trans (hmax r hrl) (by omega)

/-- A filterMap has at most one element when no two list entries are both
selected. -/
theorem filterMap_length_le_one {α β : Type} (f : α → Option β) :
    ∀ (l : List α),
      List.Pairwise (fun a b => f a = none ∨ f b = none) l →
      (l.filterMap f).length ≤ 1 := by
  intro l
  induction l with
  | nil => intro _; simp
  | cons a l ih =>
    intro hp
    obtain ⟨h1, h2⟩ := List.pairwise_cons.mp hp
    rw [List.filterMap_cons]
    cases hfa : f a with
    | none => exact ih h2
    | some b =>
      have : l.filterMap f = [] := by
        rw [List.filterMap_eq_nil_iff]
        intro c hc
        rcases h1 c hc with h | h
        · rw [hfa] at h
          cases h
        · exact h
      simp [this]

/-- One pruning step preserves the pruning invariant, for edge lists with
the creation shape: the chain/downward closure of predecessor sets makes
every non-maximal predecessor removable (its successor in the chain is
still reachable by a surviving edge), while the maximal predecessor never
is (its edges would have to go backwards). -/
theorem prune_step_inv (E0 : List PDGEdge)
    (hctl : ∀ e ∈ E0, e.edge_type = sl "control")
    (hasc : ∀ e ∈ E0, e.from_node < e.to_node)
    (hchain : ∀ e1 ∈ E0, ∀ e2 ∈ E0, e1.to_node = e2.to_node →
      e1.from_node < e2.from_node →
      ∃ e3 ∈ E0, e3.from_node = e1.from_node ∧ e3.to_node = e2.from_node)
    (hdown : ∀ e1 ∈ E0, ∀ e2 ∈ E0, e2.to_node = e1.from_node →
      ∃ e3 ∈ E0, e3.from_node = e2.from_node ∧ e3.to_node = e1.to_node)
    (hnd : List.Pairwise
      (fun e1 e2 => ¬(e1.from_node = e2.from_node ∧ e1.to_node = e2.to_node))
      E0)
    (m : Nat) (E : List PDGEdge) (hJ : PruneInv E0 m E) :
    PruneInv E0 (m + 1) (prune_step E m) := by
  obtain ⟨hsub, hup, hdone, hmaxold⟩ := hJ
  have hPeq : get_predecessors E m (some (sl "control")) =
      get_predecessors E0 m (some (sl "control")) := by
    unfold get_predecessors
    apply sublist_filterMap_of_keep _
      (fun e1 e2 : PDGEdge =>
        ¬(e1.from_node = e2.from_node ∧ e1.to_node = e2.to_node))
      (fun a h => h ⟨rfl, rfl⟩) hsub hnd
    intro a ha hfa
    by_cases hc : a.to_node = m ∧
        ((some (sl "control") : Option StrL) = none ∨
          some (sl "control") = some a.edge_type)
    · exact hup a ha (le_of_eq hc.1.symm)
    · exact absurd (if_neg hc) hfa
  unfold prune_step
  dsimp only
  split
  case isTrue h1 =>
    refine ⟨hsub, ?_, ?_, ?_⟩
    · intro e he hto
      exact hup e he (by omega)
    · intro j hj
      rcases Nat.lt_succ_iff_lt_or_eq.mp hj with h | h
      · exact hdone j h
      · subst h
        exact h1
    · intro e he hto hmem hmax
      rcases Nat.lt_succ_iff_lt_or_eq.mp hto with h | h
      · exact hmaxold e he h hmem hmax
      · exact hup e he (le_of_eq h.symm)
  case isFalse h1 =>
    have hlen2 : 2 ≤ (get_predecessors E0 m (some (sl "control"))).length := by
      rw [← hPeq]
      omega
    have hA : ∀ p1,
        (∀ q ∈ get_predecessors E0 m (some (sl "control")), q ≤ p1) →
        p1 ∉ (get_predecessors E m (some (sl "control"))).filter (fun p1 =>
          (get_predecessors E m (some (sl "control"))).any fun p2 =>
            p1 ≠ p2 && E.any fun e =>
              e.from_node = p1 && e.to_node = p2 &&
                e.edge_type = sl "control") := by
      intro p1 hpmax hmem
      obtain ⟨hp1, hany⟩ := List.mem_filter.mp hmem
      obtain ⟨p2, hp2, hcond⟩ := List.any_eq_true.mp hany
      simp only [Bool.and_eq_true, decide_eq_true_eq, ne_eq, decide_not,
        Bool.not_eq_true'] at hcond
      obtain ⟨hne, hedge⟩ := hcond
      obtain ⟨ew, hew, hewc⟩ := List.any_eq_true.mp hedge
      simp only [Bool.and_eq_true, decide_eq_true_eq] at hewc
      obtain ⟨⟨hwf, hwt⟩, -⟩ := hewc
      have hlt : ew.from_node < ew.to_node := hasc ew (hsub.subset hew)
      rw [hPeq] at hp2
      have := hpmax p2 hp2
      omega
    have hB : ∀ p1 ∈ get_predecessors E0 m (some (sl "control")),
        (∃ b ∈ get_predecessors E0 m (some (sl "control")), p1 < b) →
        p1 ∈ (get_predecessors E m (some (sl "control"))).filter (fun p1 =>
          (get_predecessors E m (some (sl "control"))).any fun p2 =>
            p1 ≠ p2 && E.any fun e =>
              e.from_node = p1 && e.to_node = p2 &&
                e.edge_type = sl "control") := by
      intro p1 hp1 hbig
      obtain ⟨q, hq, hq1, hqmin⟩ := exists_min_above _ p1 hbig
      obtain ⟨ep1, hep1, hep1t, -, hep1f⟩ := mem_get_predecessors.mp hp1
      obtain ⟨eq0, heq0, heq0t, -, heq0f⟩ := mem_get_predecessors.mp hq
      obtain ⟨e3, he3, he3f, he3t⟩ := hchain ep1 hep1 eq0 heq0
        (by rw [hep1t, heq0t]) (by rw [hep1f, heq0f]; exact hq1)
      have hqm : q < m := by
        have := hasc eq0 heq0
        omega
      have hp1q : e3.from_node ∈
          get_predecessors E0 e3.to_node (some (sl "control")) :=
        mem_get_predecessors.mpr
          ⟨e3, he3, rfl, Or.inr (by rw [hctl e3 he3]), rfl⟩
      have hmaxq : ∀ r ∈ get_predecessors E0 e3.to_node
          (some (sl "control")), r ≤ e3.from_node := by
        intro r hr
        obtain ⟨er, her, hert, -, herf⟩ := mem_get_predecessors.mp hr
        obtain ⟨e4, he4, he4f, he4t⟩ := hdown eq0 heq0 er her
          (by rw [hert, he3t])
        have hrm : r ∈ get_predecessors E0 m (some (sl "control")) :=
          mem_get_predecessors.mpr ⟨e4, he4, by rw [he4t, heq0t],
            Or.inr (by rw [hctl e4 he4]), by rw [he4f, herf]⟩
        have hrq : r < q := by
          have := hasc er her
          omega
        by_contra hcon
        push_neg at hcon
        have : q ≤ r := hqmin r hrm (by omega)
        omega
      have he3E : e3 ∈ E :=
        hmaxold e3 he3 (by omega) hp1q hmaxq
      refine List.mem_filter.mpr ⟨by rw [hPeq]; exact hp1, ?_⟩
      rw [List.any_eq_true]
      refine ⟨q, by rw [hPeq]; exact hq, ?_⟩
      simp only [Bool.and_eq_true, decide_eq_true_eq, ne_eq, decide_not,
        Bool.not_eq_true']
      refine ⟨by simp; omega, ?_⟩
      rw [List.any_eq_true]
      refine ⟨e3, he3E, ?_⟩
      simp only [Bool.and_eq_true, decide_eq_true_eq]
      exact ⟨⟨by omega, by omega⟩, hctl e3 he3⟩
    refine ⟨?_, ?_, ?_, ?_⟩
    · exact (List.filter_sublist _).trans hsub
    · intro e he hto
      refine List.mem_filter.mpr ⟨hup e he (by omega), ?_⟩
      simp only [decide_eq_true_eq]
      intro hcon
      omega
    · intro j hj
      rcases Nat.lt_succ_iff_lt_or_eq.mp hj with h | h
      · exact le_trans (List.Sublist.length_le
          (preds_sublist (List.filter_sublist _) j (some (sl "control"))))
          (hdone j h)
      · subst h
        have hne0 : get_predecessors E0 j (some (sl "control")) ≠ [] := by
          intro hnil
          rw [hnil] at hlen2
          simp at hlen2
        obtain ⟨mx, hmx, hmxmax⟩ := exists_max_nat _ hne0
        apply filterMap_length_le_one
        have hsel : ∀ e ∈ E.filter (fun e =>
            ¬(e.to_node = j ∧ e.from_node ∈
              (get_predecessors E j (some (sl "control"))).filter (fun p1 =>
                (get_predecessors E j (some (sl "control"))).any fun p2 =>
                  p1 ≠ p2 && E.any fun e =>
                    e.from_node = p1 && e.to_node = p2 &&
                      e.edge_type = sl "control") ∧
              e.edge_type = sl "control")),
            (if e.to_node = j ∧
                ((some (sl "control") : Option StrL) = none ∨
                  some (sl "control") = some e.edge_type) then
              some e.from_node else none) ≠ none →
            e.from_node = mx ∧ e.to_node = j := by
          intro e he hfe
          obtain ⟨heE, hkeepe⟩ := List.mem_filter.mp he
          by_cases hc : e.to_node = j ∧
              ((some (sl "control") : Option StrL) = none ∨
                some (sl "control") = some e.edge_type)
          · refine ⟨?_, hc.1⟩
            have hfm : e.from_node ∈
                get_predecessors E0 j (some (sl "control")) := by
              rw [← hPeq]
              exact mem_get_predecessors.mpr ⟨e, heE, hc.1, hc.2, rfl⟩
            by_contra hnmx
            have hbig : ∃ b ∈ get_predecessors E0 j (some (sl "control")),
                e.from_node < b := by
              refine ⟨mx, hmx, ?_⟩
              have := hmxmax e.from_node hfm
              omega
            have htr := hB e.from_node hfm hbig
            simp only [decide_eq_true_eq] at hkeepe
            exact hkeepe ⟨hc.1, htr, hctl e (hsub.subset heE)⟩
          · exact absurd (if_neg hc) hfe
        have hpw : ∀ p : PDGEdge → Bool, List.Pairwise
            (fun e1 e2 =>
              ¬(e1.from_node = e2.from_node ∧ e1.to_node = e2.to_node))
            (E.filter p) := fun p =>
          List.Pairwise.sublist ((List.filter_sublist _).trans hsub) hnd
        refine (hpw _).imp_of_mem ?_
        intro a b ha hb hab
        by_cases hfa : (if a.to_node = j ∧
            ((some (sl "control") : Option StrL) = none ∨
              some (sl "control") = some a.edge_type) then
          some a.from_node else none) = none
        · exact Or.inl hfa
        · by_cases hfb : (if b.to_node = j ∧
              ((some (sl "control") : Option StrL) = none ∨
                some (sl "control") = some b.edge_type) then
            some b.from_node else none) = none
          · exact Or.inr hfb
          · obtain ⟨haf, hat⟩ := hsel a ha hfa
            obtain ⟨hbf, hbt⟩ := hsel b hb hfb
            exact absurd ⟨by rw [haf, hbf], by rw [hat, hbt]⟩ hab
    · intro e he hto hmem hmax
      rcases Nat.lt_succ_iff_lt_or_eq.mp hto with h | h
      · refine List.mem_filter.mpr ⟨hmaxold e he h hmem hmax, ?_⟩
        simp only [decide_eq_true_eq]
        intro hcon
        omega
      · refine List.mem_filter.mpr ⟨hup e he (le_of_eq h.symm), ?_⟩
        simp only [decide_eq_true_eq]
        intro hcon
        obtain ⟨hc1, hc2, -⟩ := hcon
        rw [← h] at hc2
        rw [h] at hmax
        exact hA e.from_node hmax (by rw [← h]; exact hc2)

/-- The pruning invariant is carried over the whole id-ordered fold. -/
theorem prune_range_inv (E0 : List PDGEdge)
    (hctl : ∀ e ∈ E0, e.edge_type = sl "control")
    (hasc : ∀ e ∈ E0, e.from_node < e.to_node)
    (hchain : ∀ e1 ∈ E0, ∀ e2 ∈ E0, e1.to_node = e2.to_node →
      e1.from_node < e2.from_node →
      ∃ e3 ∈ E0, e3.from_node = e1.from_node ∧ e3.to_node = e2.from_node)
    (hdown : ∀ e1 ∈ E0, ∀ e2 ∈ E0, e2.to_node = e1.from_node →
      ∃ e3 ∈ E0, e3.from_node = e2.from_node ∧ e3.to_node = e1.to_node)
    (hnd : List.Pairwise
      (fun e1 e2 => ¬(e1.from_node = e2.from_node ∧ e1.to_node = e2.to_node))
      E0) :
    ∀ (k m : Nat) (E : List PDGEdge), PruneInv E0 m E →
      PruneInv E0 (m + k) ((List.range' m k).foldl prune_step E) := by
  intro k
  induction k with
  | zero =>
    intro m E h
    simpa using h
  | succ k ih =>
    intro m E h
    rw [List.range'_succ, List.foldl_cons]
    have hstep := prune_step_inv E0 hctl hasc hchain hdown hnd m E h
    have := ih (m + 1) (prune_step E m) hstep
    rw [show m + (k + 1) = m + 1 + k by omega]
    exact this

/-- C3: in every PDG produced by `build_pdg_for_state`, after the
control-edge pruning every node has at most one control predecessor. -/
theorem c3_nodes_have_at_most_one_control_predecessor
    (vt : List (StrL × Variable)) (sid : StrL) (elem : Ast) (n : Nat) :
    (get_predecessors (build_pdg_for_state vt sid elem).edges n
      (some (sl "control"))).length ≤ 1 := by
  rw [build_pdg_eq]
  split
  · show (get_predecessors [] n (some (sl "control"))).length ≤ 1
    simp [get_predecessors]
  · set P0 : PDG := ({ state_id := sid, nodes := [], edges := [], vartable := vt, next_node_id := 0 } : PDG) with hP0
    set P1 := create_nodes_from_statements (astSize elem + 1) P0
      (extract_statement_list elem) with hP1
    set P2 := add_control_dependencies P1 with hP2
    have h0 : BuildInv P0 := initial_buildInv vt sid
    have s1 : CreStep P0 P1 := by
      rw [hP1]
      exact (creation_spec (astSize elem + 1)).1 P0
        (extract_statement_list elem) h0
    have hi1 : BuildInv P1 := s1.1
    have hfold : P2.edges =
        (List.range' 0 P1.next_node_id).foldl prune_step P1.edges := by
      show (P1.nodes.map PDGNode.id).foldl prune_step P1.edges = _
      rw [hi1.ids, List.range_eq_range']
    have hJ0 : PruneInv P1.edges 0 P1.edges :=
      ⟨List.Sublist.refl _, fun e he _ => he,
        fun j hj => absurd hj (Nat.not_lt_zero j),
        fun e _ h _ _ => absurd h (Nat.not_lt_zero _)⟩
    have hJN := prune_range_inv P1.edges hi1.ctl hi1.asc hi1.chain hi1.down
      hi1.nodup P1.next_node_id 0 P1.edges hJ0
    rw [← hfold] at hJN
    have hsub : P2.edges.Sublist P1.edges := hJN.1
    have hids2 : P2.nodes.map PDGNode.id = List.range P2.next_node_id :=
      hi1.ids
    have hlen : P2.next_node_id = P2.nodes.length := by
      have := congrArg List.length hids2
      simp only [List.length_map, List.length_range] at this
      omega
    have hids2a : P2.nodes.map PDGNode.id = List.range P2.nodes.length := by
      rw [← hlen]
      exact hids2
    have hsort : sort_nodes_by_id P2.nodes = P2.nodes := by
      apply sort_nodes_sorted
      have hpl : (P2.nodes.map PDGNode.id).Pairwise (· ≤ ·) := by
        rw [hids2a]
        exact (List.pairwise_lt_range _).imp le_of_lt
      exact List.pairwise_map.mp hpl
    obtain ⟨extra, hex, hspec⟩ := data_fold_spec P2.nodes hids2a P2.nodes []
      P2.edges [] rfl (by intro p hp; cases hp)
    rw [add_data_edges_eq, hsort, hex]
    have hsplit : get_predecessors (P2.edges ++ extra) n
        (some (sl "control")) =
        get_predecessors P2.edges n (some (sl "control")) ++
        get_predecessors extra n (some (sl "control")) :=
      List.filterMap_append _ _ _
    have hextra : get_predecessors extra n (some (sl "control")) = [] := by
      unfold get_predecessors
      rw [List.filterMap_eq_nil_iff]
      intro e he
      rw [if_neg]
      rintro ⟨-, h2⟩
      rcases h2 with h2 | h2
      · cases h2
      · have hd := (hspec e he).1
        rw [hd] at h2
        have : sl "control" = sl "data" := by
          injection h2
        exact absurd this (by decide)
    rw [hsplit, hextra, List.append_nil]
    by_cases hn : n < P1.next_node_id
    · exact hJN.2.2.1 n (by omega)
    · have hnil : get_predecessors P2.edges n (some (sl "control")) = [] := by
        unfold get_predecessors
        rw [List.filterMap_eq_nil_iff]
        intro e he
        rw [if_neg]
        rintro ⟨h1, -⟩
        have := hi1.below e (hsub.subset he)
        omega
      rw [hnil]
      simp

/-- C3 witness: in the nested-IF PDG the innermost assignment node 2 has
at most one control predecessor after pruning (before pruning it had two:
both conditions). -/
theorem c3_witness :
    (get_predecessors (build_pdg_for_state [] (sl "10") c6_elem).edges 2
      (some (sl "control"))).length ≤ 1 :=
  c3_nodes_have_at_most_one_control_predecessor [] (sl "10") c6_elem 2
